import Mathlib

/-! # jd toolbox: compile-time strings and scope guards

A shallow embedding of `compile_time_string.h` and `scope_guard.h`.

Conventions of the embedding.

* A `char` is represented by its byte value, a natural number (`'a'` is 97, `'A'` is 65).
  The comparisons `c >= 'a' && c <= 'z'` select the same bytes whether `char` is signed or
  unsigned on the platform: a byte of 128 or more is negative when signed and above `'z'`
  when unsigned.  Narrowing an `int` back to `char` is written `% 256`.
* The size `N` and the implementation tag are type parameters of `CompileTimeString`, as in the
  source; the buffer `array_` has `N + 1` elements.
* The loop counters `i` and `pos` of the constructors are `int` in the source and natural
  numbers here; the two agree for sizes up to `INT_MAX`.
-/

namespace jd

/-- The implementation tags `detail::literal_tag` and `detail::char_array_tag`. -/
inductive Tag where
  | literal_tag
  | char_array_tag
deriving DecidableEq, Repr

/-- The class template `CompileTimeString<N, T>`: both specialisations hold a buffer `array_` of
`N + 1` characters (a reference to it for `literal_tag`, a copy for `char_array_tag`). -/
structure CompileTimeString (N : Nat) (T : Tag) where
  array_ : List Nat
  length_array_ : array_.length = N + 1

/-- The alias `StringLiteral<N>`. -/
abbrev StringLiteral (N : Nat) : Type := CompileTimeString N Tag.literal_tag

/-- The alias `StringArray<N>`. -/
abbrev StringArray (N : Nat) : Type := CompileTimeString N Tag.char_array_tag

namespace detail

/-- The function `charToUpper`: `c >= 'a' && c <= 'z' ? c + 'A' - 'a' : c`. -/
def charToUpper (c : Nat) : Nat :=
  if c ≥ 97 ∧ c ≤ 122 then (c + 65 - 97) % 256 else c

/-- The function `charToLower`: `c >= 'A' && c <= 'Z' ? c - 'A' + 'a' : c`. -/
def charToLower (c : Nat) : Nat :=
  if c ≥ 65 ∧ c ≤ 90 then (c - 65 + 97) % 256 else c

end detail

namespace CompileTimeString

variable {N N1 N2 M K : Nat} {T TL TR : Tag}

/-- The member `c_str()`: the buffer. -/
def c_str (s : CompileTimeString N T) : List Nat := s.array_

/-- The member `operator[](index)`: `c_str()[index]`.  Reading outside the buffer is undefined in
the source and gives 0 here; every read made by the operations below is inside the buffer. -/
def operator_index (s : CompileTimeString N T) (index : Nat) : Nat := s.c_str.getD index 0

/-- The member `size()`: `N`. -/
def size (_s : CompileTimeString N T) : Nat := N

/-- The member `empty()`: `N == 0`. -/
def empty (_s : CompileTimeString N T) : Bool := N == 0

end CompileTimeString

/-- One assignment `array_[pos] = src[i]` followed by `++pos`, on the pair (buffer, `pos`). -/
def copyStep {M : Nat} {T : Tag} (src : CompileTimeString M T) (st : List Nat × Nat) (i : Nat) :
    List Nat × Nat :=
  (st.1.set st.2 (src.operator_index i), st.2 + 1)

/-- The loop `for (int i = 0; i < M; ++i, ++pos) array_[pos] = src[i];` from a given buffer
and `pos`. -/
def copyLoop {M : Nat} {T : Tag} (src : CompileTimeString M T) (st : List Nat × Nat) :
    List Nat × Nat :=
  (List.range M).foldl (copyStep src) st

theorem copyStep_length {M : Nat} {T : Tag} (src : CompileTimeString M T) (st : List Nat × Nat)
    (i : Nat) : (copyStep src st i).1.length = st.1.length := by
  simp [copyStep]

theorem foldl_copyStep_length {M : Nat} {T : Tag} (src : CompileTimeString M T) (is : List Nat)
    (st : List Nat × Nat) : (is.foldl (copyStep src) st).1.length = st.1.length := by
  induction is generalizing st with
  | nil => rfl
  | cons i is ih => rw [List.foldl_cons, ih, copyStep_length]

theorem copyLoop_length {M : Nat} {T : Tag} (src : CompileTimeString M T) (st : List Nat × Nat) :
    (copyLoop src st).1.length = st.1.length :=
  foldl_copyStep_length src _ st

namespace CompileTimeString

variable {N N1 N2 M K : Nat} {T TL TR : Tag}

/-- The constructor `CompileTimeString<N, literal_tag>(char const (&s)[N+1])`: `array_(s)`. -/
def ofCharArray (s : List Nat) (h : s.length = N + 1) : StringLiteral N := ⟨s, h⟩

/-- The constructor `CompileTimeString<N, char_array_tag>(CompileTimeString<N, literal_tag> const &)`:
`array_{0}`, then `array_[i] = s[i]` for `i` from 0 below `N`. -/
def ofLiteral (s : StringLiteral N) : StringArray N :=
  ⟨(copyLoop s (List.replicate (N + 1) 0, 0)).1, by rw [copyLoop_length]; simp⟩

/-- The constructor `explicit CompileTimeString<N, char_array_tag>(char c)` at `N = 1`:
`array_{c, 0}`. -/
def ofChar (c : Nat) : StringArray 1 := ⟨[c, 0], rfl⟩

/-- The constructor `explicit CompileTimeString<N, char_array_tag>(Cs... chars)`:
`array_{chars..., 0}`, called with `N` characters. -/
def ofChars (chars : List Nat) (h : chars.length = N) : StringArray N :=
  ⟨chars ++ [0], by simp [h]⟩

/-- The constructor `CompileTimeString<N, char_array_tag>(CompileTimeString<M, TL> const & l,
CompileTimeString<N-M, TR> const & r)`: `array_{0}`, `pos = 0`, then the two copy loops.  The
size of `r`, written `N-M` in the source, is `K` here, so that `N` is `M + K`. -/
def ofPair (l : CompileTimeString M TL) (r : CompileTimeString K TR) : StringArray (M + K) :=
  ⟨(copyLoop r (copyLoop l (List.replicate (M + K + 1) 0, 0))).1, by
    rw [copyLoop_length, copyLoop_length]; simp⟩

/-- The private member `toUpper(std::index_sequence<Is...>)`:
`StringArray<N>(charToUpper((*this)[Is])...)`. -/
def toUpperSeq (s : CompileTimeString N T) (is : List Nat) (h : is.length = N) : StringArray N :=
  ofChars (is.map fun i => detail.charToUpper (s.operator_index i)) (by simp [h])

/-- The private member `toLower(std::index_sequence<Is...>)`:
`StringArray<N>(charToLower((*this)[Is])...)`. -/
def toLowerSeq (s : CompileTimeString N T) (is : List Nat) (h : is.length = N) : StringArray N :=
  ofChars (is.map fun i => detail.charToLower (s.operator_index i)) (by simp [h])

/-- The member `toUpper()`: `toUpper(std::make_index_sequence<N>{})`. -/
def toUpper (s : CompileTimeString N T) : StringArray N :=
  s.toUpperSeq (List.range N) (List.length_range N)

/-- The member `toLower()`: `toUpper(std::make_index_sequence<N>{})`, as the source has it. -/
def toLower (s : CompileTimeString N T) : StringArray N :=
  s.toUpperSeq (List.range N) (List.length_range N)

end CompileTimeString

/-- The function `literal(char const (&s)[N])`: `StringLiteral<N-1>(s)`; the array length is
written `N + 1` here. -/
def literal {N : Nat} (s : List Nat) (h : s.length = N + 1) : StringLiteral N :=
  CompileTimeString.ofCharArray s h

/-- The function `literal(char c)`: `StringArray<1>(c)`. -/
def literalChar (c : Nat) : StringArray 1 := CompileTimeString.ofChar c

/-- The characters of a C++ string literal as a `char` array: its bytes and the terminator. -/
def cstr (s : String) : List Nat := s.toList.map Char.toNat ++ [0]

/-- The function `operator+(CompileTimeString<N1, TL> const & l, CompileTimeString<N2, TR> const & r)`:
`StringArray<N1+N2>(l, r)`. -/
def operator_plus {N1 N2 : Nat} {TL TR : Tag} (l : CompileTimeString N1 TL)
    (r : CompileTimeString N2 TR) : StringArray (N1 + N2) :=
  CompileTimeString.ofPair l r

namespace detail

/-- The overloads of `stringEqual` taking the two strings and a pack of indices: with sizes
that differ only the first overload applies (`false`); with equal sizes an empty pack gives
`true` and a pack `i, remaining...` gives `l[i] == r[i] && stringEqual(l, r, remaining...)`. -/
def stringEqualPack {N1 N2 : Nat} {TL TR : Tag} (l : CompileTimeString N1 TL)
    (r : CompileTimeString N2 TR) : List Nat → Bool
  | [] => if N1 = N2 then true else false
  | i :: remaining =>
    if N1 = N2 then
      l.operator_index i == r.operator_index i && stringEqualPack l r remaining
    else false

/-- The call `stringEqual(l, r, std::index_sequence<Is...>)`: with sizes that differ the
first overload applies (`false`); with equal sizes it is `stringEqual(l, r, Is...)`. -/
def stringEqual {N1 N2 : Nat} {TL TR : Tag} (l : CompileTimeString N1 TL)
    (r : CompileTimeString N2 TR) (is : List Nat) : Bool :=
  if N1 = N2 then stringEqualPack l r is else false

end detail

/-- The function `operator==(CompileTimeString<N1, TL> const & l, CompileTimeString<N2, TR> const & r)`:
`detail::stringEqual(l, r, std::make_index_sequence<N1>{})`. -/
def operator_eq {N1 N2 : Nat} {TL TR : Tag} (l : CompileTimeString N1 TL)
    (r : CompileTimeString N2 TR) : Bool :=
  detail.stringEqual l r (List.range N1)

/-- The function `operator==(CompileTimeString<N1, T> const & l, const char (&r)[N2])`:
`l == literal(r)`. -/
def operator_eq_array {N1 N2 : Nat} {T : Tag} (l : CompileTimeString N1 T) (r : List Nat)
    (h : r.length = N2 + 1) : Bool :=
  operator_eq l (literal r h)

/-- The function `operator!=`: `!(l == r)`. -/
def operator_ne {N1 N2 : Nat} {TL TR : Tag} (l : CompileTimeString N1 TL)
    (r : CompileTimeString N2 TR) : Bool :=
  !(operator_eq l r)

/-- The literal `jd::literal("testing")` of the test. -/
def testing : StringLiteral 7 := literal (cstr "testing") (by decide)

/-- The literal `jd::literal(" a thing!")` of the test. -/
def aThing : StringLiteral 9 := literal (cstr " a thing!") (by decide)

/-- The literal `jd::literal("Ab")`. -/
def mixedAb : StringLiteral 2 := literal (cstr "Ab") (by decide)

/-- The literal `jd::literal("")`, of size 0. -/
def emptyLiteral : StringLiteral 0 := literal (cstr "") (by decide)

/-- The literal `jd::literal("test")`, the first four characters of `"testing"`. -/
def testLiteral : StringLiteral 4 := literal (cstr "test") (by decide)

/-! ## Scope guards

Conventions of the embedding.

* A call ends in one of three ways (`Result`): it returns, an error propagates out of it, or
  `std::terminate()` is called.
* `World` is the state a call runs in: the variables the bound action reads and writes
  (`user`), the value of `std::uncaught_exceptions()` (`uncaught`), and a ghost counter of the
  calls of the action's `operator()` (`invocations`).  Raising an error adds one to `uncaught`
  and entering a handler subtracts one.
* `FunctionType` describes the action type: what `operator()` does, the type traits the
  constructors consult, and whether its copy and move constructors raise.  A copy or a move
  that does not raise yields an action that behaves as the original.
-/

namespace detail

/-- How a call ends: it returns a value, an error propagates out, or the process terminates. -/
inductive Result (ε α : Type) where
  | returned (a : α)
  | raised (e : ε)
  | terminated
deriving DecidableEq, Repr

/-- The state a call runs in. -/
structure World (σ : Type) where
  user : σ
  invocations : Nat
  uncaught : Int
deriving DecidableEq, Repr

/-- The action type `FunctionType` of a guard. -/
structure FunctionType (σ ε : Type) where
  call : σ → σ × Option ε
  is_copy_constructible : Bool
  is_nothrow_copy_constructible : Bool
  is_nothrow_move_constructible : Bool
  copyRaises : Option ε
  moveRaises : Option ε

/-- The value category of the argument bound by a constructor: `FunctionType &`,
`FunctionType const &` or `FunctionType &&`. -/
inductive ValueCategory where
  | lvalue
  | const_lvalue
  | rvalue
deriving DecidableEq, Repr

section

variable {σ ε : Type}

/-- The call `function_()`: runs `operator()` once; an error it raises is in flight afterwards. -/
def FunctionType.invoke (f : FunctionType σ ε) (w : World σ) : World σ × Result ε Unit :=
  match f.call w.user with
  | (u, none) => ({ w with user := u, invocations := w.invocations + 1 }, Result.returned ())
  | (u, some e) =>
    ({ user := u, invocations := w.invocations + 1, uncaught := w.uncaught + 1 }, Result.raised e)

/-- The wrapper `std::ref(*f)`: calls the original action; copying and moving it cannot raise. -/
def FunctionType.ref (f : FunctionType σ ε) : FunctionType σ ε :=
  { call := f.call
    is_copy_constructible := true
    is_nothrow_copy_constructible := true
    is_nothrow_move_constructible := true
    copyRaises := none
    moveRaises := none }

/-- An exception specification `noexcept(b)`: with `b` true an error leaving the call
terminates the process. -/
def noexceptSpec {α : Type} (b : Bool) (r : World σ × Result ε α) : World σ × Result ε α :=
  if b then
    match r with
    | (w, Result.raised _) => (w, Result.terminated)
    | (w, Result.returned a) => (w, Result.returned a)
    | (w, Result.terminated) => (w, Result.terminated)
  else r

/-- Copy construction of an action. -/
def FunctionType.copyConstruct (f : FunctionType σ ε) (w : World σ) :
    World σ × Result ε (FunctionType σ ε) :=
  noexceptSpec f.is_nothrow_copy_constructible
    (match f.copyRaises with
     | none => (w, Result.returned f)
     | some e => ({ w with uncaught := w.uncaught + 1 }, Result.raised e))

/-- Move construction of an action. -/
def FunctionType.moveConstruct (f : FunctionType σ ε) (w : World σ) :
    World σ × Result ε (FunctionType σ ε) :=
  noexceptSpec f.is_nothrow_move_constructible
    (match f.moveRaises with
     | none => (w, Result.returned f)
     | some e => ({ w with uncaught := w.uncaught + 1 }, Result.raised e))

/-- The initialisation `function_(std::move_if_noexcept(fn))`: `std::move_if_noexcept` yields a
`const &`, hence a copy, when the move constructor may raise and the type is copy
constructible, and an rvalue, hence a move, otherwise. -/
def FunctionType.moveIfNoexceptConstruct (f : FunctionType σ ε) (w : World σ) :
    World σ × Result ε (FunctionType σ ε) :=
  if !f.is_nothrow_move_constructible && f.is_copy_constructible then f.copyConstruct w
  else f.moveConstruct w

/-- The class `ScopeGuardBase`. -/
structure ScopeGuardBase where
  dismissed_ : Bool := false
deriving DecidableEq, Repr

/-- The member `ScopeGuardBase::dismiss()`: `dismissed_ = true`. -/
def ScopeGuardBase.dismiss (_g : ScopeGuardBase) : ScopeGuardBase := { dismissed_ := true }

/-- The class template `ScopeGuardImpl<FunctionType, InvokeNoexcept>`. -/
structure ScopeGuardImpl (σ ε : Type) (InvokeNoexcept : Bool) extends ScopeGuardBase where
  function_ : FunctionType σ ε

namespace ScopeGuardImpl

variable {InvokeNoexcept : Bool}

/-- The inherited member `dismiss()` on a `ScopeGuardImpl`. -/
def dismiss (g : ScopeGuardImpl σ ε InvokeNoexcept) : ScopeGuardImpl σ ε InvokeNoexcept :=
  { g with toScopeGuardBase := g.toScopeGuardBase.dismiss }

/-- The member `execute()`: with `InvokeNoexcept`, `function_()` inside `try`, and the handler
`catch(...)` calls `std::terminate()`; without, `function_()`. -/
def execute (g : ScopeGuardImpl σ ε InvokeNoexcept) (w : World σ) : World σ × Result ε Unit :=
  if InvokeNoexcept then
    match g.function_.invoke w with
    | (w1, Result.raised _) => ({ w1 with uncaught := w1.uncaught - 1 }, Result.terminated)
    | (w1, Result.returned a) => (w1, Result.returned a)
    | (w1, Result.terminated) => (w1, Result.terminated)
  else g.function_.invoke w

/-- The destructor `~ScopeGuardImpl() noexcept(InvokeNoexcept)`:
`if (!dismissed_) execute();`. -/
def destroy (g : ScopeGuardImpl σ ε InvokeNoexcept) (w : World σ) : World σ × Result ε Unit :=
  noexceptSpec InvokeNoexcept
    (if !g.dismissed_ then g.execute w else (w, Result.returned ()))

end ScopeGuardImpl

/-- The temporary bound to the parameter `ScopeGuardBase && failsafe`: what `safeConstruct`
returned, a plain `ScopeGuardBase` or a
`ScopeGuardImpl<std::reference_wrapper<FunctionType>, InvokeNoexcept>`. -/
inductive Failsafe (σ ε : Type) (InvokeNoexcept : Bool) where
  | base (g : ScopeGuardBase)
  | reference (g : ScopeGuardImpl σ ε InvokeNoexcept)

namespace Failsafe

variable {InvokeNoexcept : Bool}

/-- The call `failsafe.dismiss()`. -/
def dismiss : Failsafe σ ε InvokeNoexcept → Failsafe σ ε InvokeNoexcept
  | base g => base g.dismiss
  | reference g => reference g.dismiss

/-- The destructor of the temporary: nothing for a `ScopeGuardBase`, `~ScopeGuardImpl()` for
the guard on the reference. -/
def destroy : Failsafe σ ε InvokeNoexcept → World σ → World σ × Result ε Unit
  | base _, w => (w, Result.returned ())
  | reference g, w => g.destroy w

end Failsafe

/-- Stack unwinding with the error `e` in flight runs a destructor: when the destructor
returns, `e` goes on propagating; when an error leaves the destructor, `std::terminate()`. -/
def unwindThrough {α : Type} (d : World σ → World σ × Result ε Unit) (e : ε) (w : World σ) :
    World σ × Result ε α :=
  match d w with
  | (w1, Result.returned _) => (w1, Result.raised e)
  | (w1, Result.raised _) => (w1, Result.terminated)
  | (w1, Result.terminated) => (w1, Result.terminated)

namespace ScopeGuardImpl

variable {InvokeNoexcept : Bool}

/-- The overload `safeConstruct(std::true_type, const void *)`: `ScopeGuardBase{}`. -/
def safeConstructTrue : ScopeGuardBase := {}

/-- The overload `safeConstruct(std::false_type, FunctionType * f)`: the guard
`ScopeGuardImpl<std::reference_wrapper<FunctionType>, InvokeNoexcept>(std::ref(*f))`, armed,
on a reference to the original action (see `ctor_ref`: the constructor call on the wrapper
returns this guard and leaves the world as it was). -/
def safeConstructFalse (f : FunctionType σ ε) : ScopeGuardImpl σ ε InvokeNoexcept :=
  { dismissed_ := false, function_ := f.ref }

/-- The call `safeConstruct(std::is_nothrow_..._constructible<FunctionType>{}, &fn)`. -/
def safeConstruct (nothrow : Bool) (f : FunctionType σ ε) : Failsafe σ ε InvokeNoexcept :=
  if nothrow then Failsafe.base safeConstructTrue
  else Failsafe.reference (safeConstructFalse f)

/-- The private constructor `ScopeGuardImpl(Fn && f, ScopeGuardBase && failsafe)`:
`ScopeGuardBase{}`, `function_(std::forward<Fn>(f))`, then `failsafe.dismiss()`.  The argument
`init` is the initialisation of `function_`.  Returns the guard and the failsafe. -/
def ctorPrivate (init : World σ → World σ × Result ε (FunctionType σ ε))
    (failsafe : Failsafe σ ε InvokeNoexcept) (w : World σ) :
    World σ × Result ε (ScopeGuardImpl σ ε InvokeNoexcept × Failsafe σ ε InvokeNoexcept) :=
  match init w with
  | (w1, Result.returned fn) =>
    (w1, Result.returned ({ dismissed_ := false, function_ := fn }, failsafe.dismiss))
  | (w1, Result.raised e) => (w1, Result.raised e)
  | (w1, Result.terminated) => (w1, Result.terminated)

/-- A delegating constructor `: ScopeGuardImpl(arg, safeConstruct(...))`: the private
constructor runs, then the temporary failsafe is destroyed, at the end of the full expression
when the private constructor returned and by stack unwinding when it raised (an error leaving
the temporary's destructor after the guard is complete unwinds through the guard's own
destructor). -/
def ctorDelegate (init : World σ → World σ × Result ε (FunctionType σ ε))
    (failsafe : Failsafe σ ε InvokeNoexcept) (w : World σ) :
    World σ × Result ε (ScopeGuardImpl σ ε InvokeNoexcept) :=
  match ctorPrivate init failsafe w with
  | (w1, Result.returned (g, fs)) =>
    match fs.destroy w1 with
    | (w2, Result.returned _) => (w2, Result.returned g)
    | (w2, Result.raised e) => unwindThrough g.destroy e w2
    | (w2, Result.terminated) => (w2, Result.terminated)
  | (w1, Result.raised e) => unwindThrough failsafe.destroy e w1
  | (w1, Result.terminated) => (w1, Result.terminated)

/-- The public constructors of `ScopeGuardImpl`.
`ScopeGuardImpl(FunctionType & fn)` and `ScopeGuardImpl(FunctionType const & fn)`, both
`noexcept(std::is_nothrow_copy_constructible_v<FunctionType>)`, copy `fn` with the failsafe
`safeConstruct(std::is_nothrow_copy_constructible<FunctionType>{}, &fn)` (the `const &` one
compiles only when that trait is true).
`ScopeGuardImpl(FunctionType && fn)`,
`noexcept(std::is_nothrow_move_constructible_v<FunctionType>)`, initialises from
`std::move_if_noexcept(fn)` with the failsafe
`safeConstruct(std::is_nothrow_move_constructible<FunctionType>{}, &fn)`. -/
def ctor (fn : FunctionType σ ε) (vc : ValueCategory) (w : World σ) :
    World σ × Result ε (ScopeGuardImpl σ ε InvokeNoexcept) :=
  match vc with
  | ValueCategory.lvalue =>
    noexceptSpec fn.is_nothrow_copy_constructible
      (ctorDelegate fn.copyConstruct (safeConstruct fn.is_nothrow_copy_constructible fn) w)
  | ValueCategory.const_lvalue =>
    noexceptSpec fn.is_nothrow_copy_constructible
      (ctorDelegate fn.copyConstruct (safeConstruct fn.is_nothrow_copy_constructible fn) w)
  | ValueCategory.rvalue =>
    noexceptSpec fn.is_nothrow_move_constructible
      (ctorDelegate fn.moveIfNoexceptConstruct
        (safeConstruct fn.is_nothrow_move_constructible fn) w)

/-- The initialisation of `function_` from the argument of a public constructor: a copy for
`FunctionType &` and `FunctionType const &`, from `std::move_if_noexcept(fn)` for
`FunctionType &&`. -/
def capture (fn : FunctionType σ ε) (vc : ValueCategory) (w : World σ) :
    World σ × Result ε (FunctionType σ ε) :=
  match vc with
  | ValueCategory.lvalue => fn.copyConstruct w
  | ValueCategory.const_lvalue => fn.copyConstruct w
  | ValueCategory.rvalue => fn.moveIfNoexceptConstruct w

/-- The move constructor `ScopeGuardImpl(ScopeGuardImpl && other)`,
`noexcept(std::is_nothrow_move_constructible_v<FunctionType>)`:
`function_(std::move_if_noexcept(other.function_))`, then
`dismissed_ = std::exchange(other.dismissed_, true)`.  Returns the new guard and `other`. -/
def moveCtor (other : ScopeGuardImpl σ ε InvokeNoexcept) (w : World σ) :
    World σ × Result ε (ScopeGuardImpl σ ε InvokeNoexcept × ScopeGuardImpl σ ε InvokeNoexcept) :=
  noexceptSpec other.function_.is_nothrow_move_constructible
    (match other.function_.moveIfNoexceptConstruct w with
     | (w1, Result.returned fn) =>
       (w1, Result.returned
         ({ dismissed_ := other.dismissed_, function_ := fn }, { other with dismissed_ := true }))
     | (w1, Result.raised e) => (w1, Result.raised e)
     | (w1, Result.terminated) => (w1, Result.terminated))

end ScopeGuardImpl

/-- The class template `ScopeGuardConditional<FunctionType, ExecuteOnException>`. -/
structure ScopeGuardConditional (σ ε : Type) (ExecuteOnException : Bool) where
  guard_ : ScopeGuardImpl σ ε ExecuteOnException
  exceptionCount_ : Int

namespace ScopeGuardConditional

variable {ExecuteOnException : Bool}

/-- The constructors `ScopeGuardConditional(FunctionType const & fn)`, `guard_(fn)`,
`noexcept(std::is_nothrow_copy_constructible_v<FunctionType>)`, and
`ScopeGuardConditional(FunctionType && fn)`, `guard_(std::move(fn))`,
`noexcept(std::is_nothrow_move_constructible_v<FunctionType>)`; both then initialise
`exceptionCount_` with `std::uncaught_exceptions()`.  An lvalue binds to the first. -/
def ctor (fn : FunctionType σ ε) (vc : ValueCategory) (w : World σ) :
    World σ × Result ε (ScopeGuardConditional σ ε ExecuteOnException) :=
  match vc with
  | ValueCategory.rvalue =>
    noexceptSpec fn.is_nothrow_move_constructible
      (match ScopeGuardImpl.ctor fn ValueCategory.rvalue w with
       | (w1, Result.returned g) =>
         (w1, Result.returned { guard_ := g, exceptionCount_ := w1.uncaught })
       | (w1, Result.raised e) => (w1, Result.raised e)
       | (w1, Result.terminated) => (w1, Result.terminated))
  | _ =>
    noexceptSpec fn.is_nothrow_copy_constructible
      (match ScopeGuardImpl.ctor fn ValueCategory.const_lvalue w with
       | (w1, Result.returned g) =>
         (w1, Result.returned { guard_ := g, exceptionCount_ := w1.uncaught })
       | (w1, Result.raised e) => (w1, Result.raised e)
       | (w1, Result.terminated) => (w1, Result.terminated))

/-- The body of `~ScopeGuardConditional()`:
`if (ExecuteOnException != (exceptionCount_ < std::uncaught_exceptions())) guard_.dismiss();`. -/
def destructorBody (g : ScopeGuardConditional σ ε ExecuteOnException) (w : World σ) :
    ScopeGuardConditional σ ε ExecuteOnException :=
  if ExecuteOnException != decide (g.exceptionCount_ < w.uncaught) then
    { g with guard_ := g.guard_.dismiss }
  else g

/-- The destructor `~ScopeGuardConditional() noexcept(ExecuteOnException)`: its body, then the
destructor of the member `guard_`. -/
def destroy (g : ScopeGuardConditional σ ε ExecuteOnException) (w : World σ) :
    World σ × Result ε Unit :=
  noexceptSpec ExecuteOnException ((g.destructorBody w).guard_.destroy w)

end ScopeGuardConditional

/-- The function `operator+(ScopeGuardExit, F && f)`:
`ScopeGuardImpl<std::decay_t<F>, true>(std::forward<F>(f))`, with the exception specification of
that constructor call. -/
def operator_plus_ScopeGuardExit (f : FunctionType σ ε) (vc : ValueCategory) (w : World σ) :
    World σ × Result ε (ScopeGuardImpl σ ε true) :=
  ScopeGuardImpl.ctor f vc w

/-- The function `operator+(ScopeGuardSuccess, F && f)`:
`ScopeGuardConditional<std::decay_t<F>, false>(std::forward<F>(f))`. -/
def operator_plus_ScopeGuardSuccess (f : FunctionType σ ε) (vc : ValueCategory) (w : World σ) :
    World σ × Result ε (ScopeGuardConditional σ ε false) :=
  ScopeGuardConditional.ctor f vc w

/-- The function `operator+(ScopeGuardFail, F && f)`:
`ScopeGuardConditional<std::decay_t<F>, true>(std::forward<F>(f))`. -/
def operator_plus_ScopeGuardFail (f : FunctionType σ ε) (vc : ValueCategory) (w : World σ) :
    World σ × Result ε (ScopeGuardConditional σ ε true) :=
  ScopeGuardConditional.ctor f vc w

end

end detail

section

variable {σ ε : Type}

/-- The function `makeGuard(F && f)`:
`detail::ScopeGuardImpl<std::decay_t<F>, true>(std::forward<F>(f))`. -/
def makeGuard (f : detail.FunctionType σ ε) (vc : detail.ValueCategory) (w : detail.World σ) :
    detail.World σ × detail.Result ε (detail.ScopeGuardImpl σ ε true) :=
  detail.ScopeGuardImpl.ctor f vc w

end

/-! ## The life of a guard instance

The specification names three states of a guard instance, `Armed`, `Dismissed` and `Fired`.
The source keeps one flag, `dismissed_`, and calls the action only from the destructor, so the
state of an instance is read off its life: alive with the flag clear, alive with the flag set,
or destroyed, with or without the action having been called by the destructor.  The object
lifetime rules of C++ give no operation on a destroyed object. -/

namespace detail

/-- The three states the specification gives a guard instance. -/
inductive GuardState where
  | Armed
  | Dismissed
  | Fired
deriving DecidableEq, Repr

/-- A guard instance over its life: alive, with its members, or destroyed, with the record of
whether its destructor called the action. -/
inductive GuardLife (σ ε : Type) (InvokeNoexcept : Bool) where
  | alive (g : ScopeGuardImpl σ ε InvokeNoexcept)
  | destroyed (called : Bool)

/-- What a program does while a guard instance exists: it calls `dismiss()` on it, it move
constructs another guard from it, the scope of the guard ends (`~ScopeGuardImpl()`), the scope
of the `ScopeGuardConditional` that holds the guard as its member `guard_` with the recorded
count `exceptionCount_` ends (`~ScopeGuardConditional()`), or other code runs, which changes
the variables and the count of errors in flight and does not touch the guard. -/
inductive GuardOp (σ : Type) where
  | dismiss
  | moveFrom
  | scopeExit
  | conditionalScopeExit (exceptionCount_ : Int)
  | elsewhere (user : σ) (uncaught : Int)

section

variable {σ ε : Type} {InvokeNoexcept : Bool}

/-- The state of the specification an instance is in: alive and `dismissed_` clear is `Armed`,
alive and `dismissed_` set is `Dismissed`, destroyed after its destructor called the action is
`Fired`, destroyed without a call is `Dismissed`. -/
def GuardLife.state : GuardLife σ ε InvokeNoexcept → GuardState
  | GuardLife.alive g => if g.dismissed_ then GuardState.Dismissed else GuardState.Armed
  | GuardLife.destroyed true => GuardState.Fired
  | GuardLife.destroyed false => GuardState.Dismissed

/-- One step of the life of an instance in the world `w`; `none` when the operation does not
exist, the instance being destroyed.  A destructor leaves the instance destroyed, with the
record of whether the count of calls of the action went up; a move construction that raises
leaves the source as it was. -/
def GuardLife.step (op : GuardOp σ) (l : GuardLife σ ε InvokeNoexcept) (w : World σ) :
    Option (GuardLife σ ε InvokeNoexcept × World σ) :=
  match l, op with
  | GuardLife.alive g, GuardOp.dismiss => some (GuardLife.alive g.dismiss, w)
  | GuardLife.alive g, GuardOp.moveFrom =>
    match ScopeGuardImpl.moveCtor g w with
    | (w1, Result.returned (_, other)) => some (GuardLife.alive other, w1)
    | (w1, Result.raised _) => some (GuardLife.alive g, w1)
    | (w1, Result.terminated) => some (GuardLife.alive g, w1)
  | GuardLife.alive g, GuardOp.scopeExit =>
    some (GuardLife.destroyed (decide ((g.destroy w).1.invocations ≠ w.invocations)),
      (g.destroy w).1)
  | GuardLife.alive g, GuardOp.conditionalScopeExit c =>
    some (GuardLife.destroyed
        (decide (((ScopeGuardConditional.destroy
          { guard_ := g, exceptionCount_ := c } w).1).invocations ≠ w.invocations)),
      (ScopeGuardConditional.destroy { guard_ := g, exceptionCount_ := c } w).1)
  | l, GuardOp.elsewhere user uncaught =>
    some (l, { user := user, invocations := w.invocations, uncaught := uncaught })
  | GuardLife.destroyed _, GuardOp.dismiss => none
  | GuardLife.destroyed _, GuardOp.moveFrom => none
  | GuardLife.destroyed _, GuardOp.scopeExit => none
  | GuardLife.destroyed _, GuardOp.conditionalScopeExit _ => none

/-- A sequence of steps, from the first to the last; `none` when one of them does not exist. -/
def GuardLife.run :
    List (GuardOp σ) → GuardLife σ ε InvokeNoexcept × World σ →
      Option (GuardLife σ ε InvokeNoexcept × World σ)
  | [], s => some s
  | op :: ops, s =>
    match s.1.step op s.2 with
    | none => none
    | some s1 => GuardLife.run ops s1

end

end detail

/-- The action `[&]() { executed = true; }` of the test, a closure that sets a flag; its copy
and move constructors cannot raise. -/
def setFlag : detail.FunctionType Bool String :=
  { call := fun _ => (true, none)
    is_copy_constructible := true
    is_nothrow_copy_constructible := true
    is_nothrow_move_constructible := true
    copyRaises := none
    moveRaises := none }

/-- The action `[&]() { throw std::runtime_error("test"); }` of the test. -/
def throwTest : detail.FunctionType Bool String :=
  { call := fun u => (u, some "test")
    is_copy_constructible := true
    is_nothrow_copy_constructible := true
    is_nothrow_move_constructible := true
    copyRaises := none
    moveRaises := none }

/-- The action `TestFunc` of the test: `operator()` sets `undoExecuted_`, the copy constructor
raises `std::runtime_error("test")`, and there is no move constructor, so that a move is a
copy. -/
def TestFunc : detail.FunctionType Bool String :=
  { call := fun _ => (true, none)
    is_copy_constructible := true
    is_nothrow_copy_constructible := false
    is_nothrow_move_constructible := false
    copyRaises := some "test"
    moveRaises := some "test" }

/-- An action as `TestFunc` whose `operator()` sets the flag and then raises
`std::runtime_error("undo")`. -/
def TestFuncThrowing : detail.FunctionType Bool String :=
  { call := fun _ => (true, some "undo")
    is_copy_constructible := true
    is_nothrow_copy_constructible := false
    is_nothrow_move_constructible := false
    copyRaises := some "test"
    moveRaises := some "test" }

/-- The world at the start of the test: the flag is not set, the action has not been called,
no error is in flight. -/
def world0 : detail.World Bool := { user := false, invocations := 0, uncaught := 0 }

/-- The world with one error in flight. -/
def world1 : detail.World Bool := { user := false, invocations := 0, uncaught := 1 }

/-- The armed guard `makeGuard` returns for `setFlag`. -/
def exitGuard : detail.ScopeGuardImpl Bool String true :=
  { dismissed_ := false, function_ := setFlag }

/-- The armed guard `makeGuard` returns for `throwTest`. -/
def exitGuardThrowing : detail.ScopeGuardImpl Bool String true :=
  { dismissed_ := false, function_ := throwTest }

/-- The guard `SCOPE_SUCCESS` makes for `setFlag` with one error in flight. -/
def successGuard1 : detail.ScopeGuardConditional Bool String false :=
  { guard_ := { dismissed_ := false, function_ := setFlag }, exceptionCount_ := 1 }

/-- The guard `SCOPE_FAIL` makes for `setFlag` with no error in flight. -/
def failGuard0 : detail.ScopeGuardConditional Bool String true :=
  { guard_ := { dismissed_ := false, function_ := setFlag }, exceptionCount_ := 0 }

/-- The guard `SCOPE_SUCCESS` makes for `setFlag` with no error in flight. -/
def successGuard0 : detail.ScopeGuardConditional Bool String false :=
  { guard_ := { dismissed_ := false, function_ := setFlag }, exceptionCount_ := 0 }

/-- The guard `SCOPE_SUCCESS { throw std::runtime_error("test"); }` of the test, made with no
error in flight. -/
def successGuardThrowing : detail.ScopeGuardConditional Bool String false :=
  { guard_ := { dismissed_ := false, function_ := throwTest }, exceptionCount_ := 0 }

/-- The guard `exitGuard` after it was the source of a move construction. -/
def exitGuardMovedFrom : detail.ScopeGuardImpl Bool String true :=
  { dismissed_ := true, function_ := setFlag }

/-! ## Lemmas on the copy loops -/

theorem foldl_copyStep_range_snd {M : Nat} {T : Tag} (src : CompileTimeString M T) (n : Nat)
    (st : List Nat × Nat) : ((List.range n).foldl (copyStep src) st).2 = st.2 + n := by
  induction n with
  | zero => rfl
  | succ n ih =>
    rw [List.range_succ, List.foldl_append, List.foldl_cons, List.foldl_nil]
    simp only [copyStep, ih]
    omega

theorem foldl_copyStep_range_getD {M : Nat} {T : Tag} (src : CompileTimeString M T) (n : Nat)
    (st : List Nat × Nat) (j : Nat) :
    ((List.range n).foldl (copyStep src) st).1.getD j 0 =
      if st.2 ≤ j ∧ j < st.2 + n ∧ j < st.1.length then src.operator_index (j - st.2)
      else st.1.getD j 0 := by
  induction n with
  | zero =>
    rw [List.range_zero, List.foldl_nil, if_neg]
    omega
  | succ n ih =>
    rw [List.range_succ, List.foldl_append, List.foldl_cons, List.foldl_nil]
    simp only [copyStep, foldl_copyStep_range_snd]
    rw [List.getD_eq_getElem?_getD, List.getElem?_set, foldl_copyStep_length]
    by_cases hj : st.2 + n = j
    · subst hj
      rw [if_pos rfl]
      by_cases hl : st.2 + n < st.1.length
      · rw [if_pos hl, if_pos ⟨by omega, by omega, hl⟩, Nat.add_sub_cancel_left]
        rfl
      · rw [if_neg hl, if_neg (by omega), List.getD_eq_default _ _ (by omega)]
        rfl
    · rw [if_neg hj, ← List.getD_eq_getElem?_getD, ih]
      by_cases h1 : st.2 ≤ j ∧ j < st.2 + n ∧ j < st.1.length
      · rw [if_pos h1, if_pos]
        omega
      · rw [if_neg h1, if_neg]
        omega

theorem copyLoop_snd {M : Nat} {T : Tag} (src : CompileTimeString M T) (st : List Nat × Nat) :
    (copyLoop src st).2 = st.2 + M :=
  foldl_copyStep_range_snd src M st

theorem copyLoop_getD {M : Nat} {T : Tag} (src : CompileTimeString M T) (st : List Nat × Nat)
    (j : Nat) :
    (copyLoop src st).1.getD j 0 =
      if st.2 ≤ j ∧ j < st.2 + M ∧ j < st.1.length then src.operator_index (j - st.2)
      else st.1.getD j 0 :=
  foldl_copyStep_range_getD src M st j

/-- The character of `l + r` at any position: from `l` below `N1`, from `r` from `N1` below
`N1 + N2`, and the initial 0 elsewhere. -/
theorem operator_plus_index {N1 N2 : Nat} {TL TR : Tag} (l : CompileTimeString N1 TL)
    (r : CompileTimeString N2 TR) (j : Nat) :
    (operator_plus l r).operator_index j =
      if j < N1 then l.operator_index j
      else if j < N1 + N2 then r.operator_index (j - N1) else 0 := by
  simp only [operator_plus, CompileTimeString.ofPair, CompileTimeString.operator_index,
    CompileTimeString.c_str]
  rw [copyLoop_getD, copyLoop_snd, copyLoop_length, copyLoop_getD]
  simp only [List.length_replicate, Nat.zero_add, Nat.zero_le, true_and, Nat.sub_zero,
    CompileTimeString.operator_index, CompileTimeString.c_str]
  by_cases h1 : j < N1
  · rw [if_neg (by omega), if_pos (by omega), if_pos h1]
  · rw [if_neg h1]
    by_cases h2 : j < N1 + N2
    · rw [if_pos (by omega), if_pos h2]
    · rw [if_neg (by omega), if_neg (by omega), if_neg h2]
      simp only [List.getD_eq_getElem?_getD, List.getElem?_replicate]
      split <;> rfl

/-- The character of `s.toUpper()` at a position below `N`. -/
theorem toUpper_index {N : Nat} {T : Tag} (s : CompileTimeString N T) (i : Nat) (h : i < N) :
    s.toUpper.operator_index i = detail.charToUpper (s.operator_index i) := by
  simp [CompileTimeString.toUpper, CompileTimeString.toUpperSeq, CompileTimeString.ofChars,
    CompileTimeString.operator_index, CompileTimeString.c_str, List.getD_eq_getElem?_getD,
    List.getElem?_append_left, h, List.getElem?_range]

theorem stringEqualPack_iff {N : Nat} {TL TR : Tag} (l : CompileTimeString N TL)
    (r : CompileTimeString N TR) (is : List Nat) :
    detail.stringEqualPack l r is = true ↔ ∀ i ∈ is, l.operator_index i = r.operator_index i := by
  induction is with
  | nil => simp [detail.stringEqualPack]
  | cons i is ih => simp [detail.stringEqualPack, ih]

/-! ## Compile-time strings: the claims -/

/-- C1: for all compile-time strings `l` and `r` of any two variants, `l + r` has size
`l.size() + r.size()`, its character at `i` is `l[i]` for `i < l.size()` and `r[i - l.size()]`
for `l.size() <= i < l.size() + r.size()`; and `literal("testing") + literal(" a thing!")` has
size 16 and compares equal to `"testing a thing!"`. -/
theorem operator_plus_size_and_chars {N1 N2 : Nat} {TL TR : Tag} (l : CompileTimeString N1 TL)
    (r : CompileTimeString N2 TR) :
    (operator_plus l r).size = l.size + r.size ∧
    (∀ i, i < l.size → (operator_plus l r).operator_index i = l.operator_index i) ∧
    (∀ i, l.size ≤ i → i < l.size + r.size →
      (operator_plus l r).operator_index i = r.operator_index (i - l.size)) ∧
    (operator_plus testing aThing).size = 16 ∧
    (operator_plus testing aThing).c_str = cstr "testing a thing!" ∧
    operator_eq_array (operator_plus testing aThing) (cstr "testing a thing!")
      (show (cstr "testing a thing!").length = 16 + 1 by decide) = true := by
  refine ⟨rfl, ?_, ?_, rfl, by decide, by decide⟩
  · intro i hi
    have hi : i < N1 := hi
    rw [operator_plus_index, if_pos hi]
  · intro i h1 h2
    have h1 : N1 ≤ i := h1
    have h2 : i < N1 + N2 := h2
    rw [operator_plus_index, if_neg (by omega), if_pos h2]
    rfl

/-- Witness of C1 at `literal("testing") + literal(" a thing!")`: position 3 comes from the left
operand and position 10 from the right one. -/
theorem operator_plus_size_and_chars_witness :
    (operator_plus testing aThing).operator_index 3 = testing.operator_index 3 ∧
    (operator_plus testing aThing).operator_index 10 = aThing.operator_index (10 - testing.size) :=
  ⟨(operator_plus_size_and_chars testing aThing).2.1 3 (by decide),
   (operator_plus_size_and_chars testing aThing).2.2.1 10 (by decide) (by decide)⟩

/-- C2: `l == r` is true if and only if the sizes are equal and `l[i] = r[i]` at every position
`i` below the size; with sizes that differ the result is false whatever the contents. -/
theorem operator_eq_iff {N1 N2 : Nat} {TL TR : Tag} (l : CompileTimeString N1 TL)
    (r : CompileTimeString N2 TR) :
    (operator_eq l r = true ↔
      N1 = N2 ∧ ∀ i, i < N1 → l.operator_index i = r.operator_index i) ∧
    (N1 ≠ N2 → operator_eq l r = false) := by
  by_cases h : N1 = N2
  · subst h
    simp [operator_eq, detail.stringEqual, stringEqualPack_iff]
  · simp [operator_eq, detail.stringEqual, h]

/-- Witness of C2: `literal("testing")` and `literal(" a thing!")` have sizes 7 and 9 and
compare unequal; `literal("testing")` compares equal to itself. -/
theorem operator_eq_iff_witness :
    operator_eq testing aThing = false ∧ operator_eq testing testing = true :=
  ⟨(operator_eq_iff testing aThing).2 (by decide),
   (operator_eq_iff testing testing).1.mpr ⟨rfl, fun _ _ => rfl⟩⟩

/-- C3: `s.toUpper()` has the size of `s` and at every position `i` below the size holds
`s[i] - 32`, the upper-case counterpart, when `s[i]` is in `'a'..'z'` (97..122), and `s[i]`
otherwise; and `literal("testing").toUpper() == "TESTING"`. -/
theorem toUpper_size_and_chars {N : Nat} {T : Tag} (s : CompileTimeString N T) :
    s.toUpper.size = s.size ∧
    (∀ i, i < s.size →
      s.toUpper.operator_index i =
        if 97 ≤ s.operator_index i ∧ s.operator_index i ≤ 122 then s.operator_index i - 32
        else s.operator_index i) ∧
    operator_eq_array testing.toUpper (cstr "TESTING")
      (show (cstr "TESTING").length = 7 + 1 by decide) = true := by
  refine ⟨rfl, ?_, by decide⟩
  intro i hi
  rw [toUpper_index s i hi, detail.charToUpper]
  by_cases h : 97 ≤ s.operator_index i ∧ s.operator_index i ≤ 122
  · rw [if_pos h, if_pos h]
    omega
  · rw [if_neg h, if_neg h]

/-- Witness of C3: position 0 of `literal("testing").toUpper()`. -/
theorem toUpper_size_and_chars_witness :
    testing.toUpper.operator_index 0 =
      if 97 ≤ testing.operator_index 0 ∧ testing.operator_index 0 ≤ 122
      then testing.operator_index 0 - 32 else testing.operator_index 0 :=
  (toUpper_size_and_chars testing).2.1 0 (by decide)

/-- C4, the code at `literal("Ab").toLower()`: the result is `"AB"`; the upper-case `'A'` at
position 0 is kept and the lower-case `'b'` at position 1 is upper-cased, where lower-casing
gives `"ab"`. -/
theorem toLower_upper_cases :
    mixedAb.toLower.c_str = cstr "AB" ∧
    mixedAb.toLower.operator_index 0 = 65 ∧
    detail.charToLower (mixedAb.operator_index 0) = 97 ∧
    mixedAb.toLower.operator_index 1 = 66 ∧
    mixedAb.operator_index 1 = 98 := by
  decide

/-! ## Lemmas on scope guards -/

namespace detail

section

variable {σ ε : Type}

theorem noexceptSpec_returned {α : Type} (b : Bool) (w : World σ) (a : α) :
    noexceptSpec b (w, (Result.returned a : Result ε α)) = (w, Result.returned a) := by
  cases b <;> rfl

theorem noexceptSpec_terminated {α : Type} (b : Bool) (w : World σ) :
    noexceptSpec b (w, (Result.terminated : Result ε α)) = (w, Result.terminated) := by
  cases b <;> rfl

theorem noexceptSpec_eq_returned {α : Type} (b : Bool) (r : World σ × Result ε α) (w : World σ)
    (a : α) (h : noexceptSpec b r = (w, Result.returned a)) : r = (w, Result.returned a) := by
  rcases r with ⟨w1, _ | _ | _⟩ <;> cases b <;> simp_all [noexceptSpec]

theorem noexceptSpec_fst {α : Type} (b : Bool) (r : World σ × Result ε α) :
    (noexceptSpec b r).1 = r.1 := by
  rcases r with ⟨w1, _ | _ | _⟩ <;> cases b <;> rfl

theorem invoke_invocations (f : FunctionType σ ε) (w : World σ) :
    (f.invoke w).1.invocations = w.invocations + 1 := by
  unfold FunctionType.invoke
  split <;> rfl

theorem invoke_of_call_returns (f : FunctionType σ ε) (w : World σ) (u : σ)
    (h : f.call w.user = (u, none)) :
    f.invoke w = ({ w with user := u, invocations := w.invocations + 1 }, Result.returned ()) := by
  unfold FunctionType.invoke
  rw [h]

theorem invoke_of_call_raises (f : FunctionType σ ε) (w : World σ) (u : σ) (e : ε)
    (h : f.call w.user = (u, some e)) :
    f.invoke w =
      ({ user := u, invocations := w.invocations + 1, uncaught := w.uncaught + 1 },
        Result.raised e) := by
  unfold FunctionType.invoke
  rw [h]

/-- The constructor call `ScopeGuardImpl<std::reference_wrapper<FunctionType>,
InvokeNoexcept>(std::ref(*f))` inside `safeConstruct(std::false_type, f)` returns the armed guard
on the reference and leaves the world as it was. -/
theorem ctor_ref {b : Bool} (f : FunctionType σ ε) (w : World σ) :
    ScopeGuardImpl.ctor f.ref ValueCategory.rvalue w =
      (w, Result.returned (ScopeGuardImpl.safeConstructFalse f : ScopeGuardImpl σ ε b)) := by
  cases b <;> rfl

/-- A public constructor that returns leaves the world as it was and returns an armed guard
holding the action. -/
theorem ctor_returned {b : Bool} (f : FunctionType σ ε) (vc : ValueCategory) (w w1 : World σ)
    (g : ScopeGuardImpl σ ε b) (h : ScopeGuardImpl.ctor f vc w = (w1, Result.returned g)) :
    w1 = w ∧ g = { dismissed_ := false, function_ := f } := by
  rcases f with ⟨call, cc, ncc, nmc, cr, mr⟩
  cases vc <;> cases cc <;> cases ncc <;> cases nmc <;> cases cr <;> cases mr <;> cases b <;>
    simp_all [ScopeGuardImpl.ctor, ScopeGuardImpl.ctorDelegate, ScopeGuardImpl.ctorPrivate,
      ScopeGuardImpl.safeConstruct, ScopeGuardImpl.safeConstructTrue,
      ScopeGuardImpl.safeConstructFalse, FunctionType.copyConstruct, FunctionType.moveConstruct,
      FunctionType.moveIfNoexceptConstruct, noexceptSpec, Failsafe.dismiss, Failsafe.destroy,
      ScopeGuardImpl.destroy, ScopeGuardImpl.dismiss, ScopeGuardBase.dismiss, unwindThrough,
      ScopeGuardImpl.execute, FunctionType.invoke, FunctionType.ref]
  all_goals
    exfalso
    revert h
    rcases call w.user with ⟨u, _ | e⟩ <;> simp

end

end detail

/-! ## Scope guards: the claims -/

section

variable {σ ε : Type}

open detail

theorem iterate_dismiss_succ {b : Bool} (g : ScopeGuardImpl σ ε b) (n : Nat) :
    ScopeGuardImpl.dismiss^[n + 1] g = g.dismiss := by
  induction n with
  | zero => rfl
  | succ n ih => rw [Function.iterate_succ_apply', ih]; rfl

theorem destroy_dismissed {b : Bool} (g : ScopeGuardImpl σ ε b) (w : World σ)
    (h : g.dismissed_ = true) : g.destroy w = (w, Result.returned ()) := by
  simp [ScopeGuardImpl.destroy, h, noexceptSpec_returned]

theorem destroy_armed_returns {b : Bool} (g : ScopeGuardImpl σ ε b) (w : World σ) (u : σ)
    (h : g.dismissed_ = false) (hcall : g.function_.call w.user = (u, none)) :
    g.destroy w =
      ({ w with user := u, invocations := w.invocations + 1 }, Result.returned ()) := by
  cases b <;>
    simp [ScopeGuardImpl.destroy, ScopeGuardImpl.execute, h, invoke_of_call_returns _ _ _ hcall,
      noexceptSpec]

theorem destroy_armed_raises_terminates (g : ScopeGuardImpl σ ε true) (w : World σ) (u : σ)
    (e : ε) (h : g.dismissed_ = false) (hcall : g.function_.call w.user = (u, some e)) :
    g.destroy w =
      ({ user := u, invocations := w.invocations + 1, uncaught := w.uncaught + 1 - 1 },
        Result.terminated) := by
  simp [ScopeGuardImpl.destroy, ScopeGuardImpl.execute, h, invoke_of_call_raises _ _ _ _ hcall,
    noexceptSpec]

theorem destroy_invocations {b : Bool} (g : ScopeGuardImpl σ ε b) (w : World σ) :
    (g.destroy w).1.invocations = w.invocations + (if g.dismissed_ then 0 else 1) := by
  rcases hc : g.function_.call w.user with ⟨u, _ | e⟩ <;> cases hd : g.dismissed_ <;> cases b <;>
    simp [ScopeGuardImpl.destroy, ScopeGuardImpl.execute, hd, FunctionType.invoke, hc,
      noexceptSpec]

theorem conditional_ctor_returned {b : Bool} (f : FunctionType σ ε) (vc : ValueCategory)
    (w w1 : World σ) (g : ScopeGuardConditional σ ε b)
    (h : ScopeGuardConditional.ctor f vc w = (w1, Result.returned g)) :
    w1 = w ∧ g = { guard_ := { dismissed_ := false, function_ := f },
                   exceptionCount_ := w.uncaught } := by
  have key : ∀ (nt : Bool) (vc1 : ValueCategory),
      noexceptSpec nt
        (match (ScopeGuardImpl.ctor f vc1 w : World σ × Result ε (ScopeGuardImpl σ ε b)) with
         | (w1, Result.returned g) =>
           (w1, Result.returned
             ({ guard_ := g, exceptionCount_ := w1.uncaught } : ScopeGuardConditional σ ε b))
         | (w1, Result.raised e) => (w1, Result.raised e)
         | (w1, Result.terminated) => (w1, Result.terminated)) = (w1, Result.returned g) →
      w1 = w ∧ g = { guard_ := { dismissed_ := false, function_ := f },
                     exceptionCount_ := w.uncaught } := by
    intro nt vc1 h1
    have h2 := noexceptSpec_eq_returned _ _ _ _ h1
    rcases hc : (ScopeGuardImpl.ctor f vc1 w : World σ × Result ε (ScopeGuardImpl σ ε b))
      with ⟨w2, g2 | e | _⟩
    · obtain ⟨hw, hg⟩ := ctor_returned f vc1 w w2 g2 hc
      rw [hc] at h2
      simp only [Prod.mk.injEq, Result.returned.injEq] at h2
      obtain ⟨h3, h4⟩ := h2
      subst hw hg
      exact ⟨h3.symm, h4.symm⟩
    · rw [hc] at h2
      simp at h2
    · rw [hc] at h2
      simp at h2
  cases vc
  · exact key _ _ h
  · exact key _ _ h
  · exact key _ _ h

end

section

variable {σ ε : Type}

open detail

/-- C5: a guard returned by `makeGuard` or by `on exit` (`operator+(ScopeGuardExit, f)`), on
which `dismiss()` is then called `n` times, is destroyed in any world `w` (whatever the number
of errors in flight) in which the action does not raise: with `n = 0` the destructor calls the
action exactly once and returns; with `n > 0` it calls nothing and leaves the world as it
was. -/
theorem exit_guard_fires_once_unless_dismissed (f : FunctionType σ ε) (vc : ValueCategory)
    (w0 w1 : World σ) (g : ScopeGuardImpl σ ε true)
    (hmk : makeGuard f vc w0 = (w1, Result.returned g) ∨
      operator_plus_ScopeGuardExit f vc w0 = (w1, Result.returned g))
    (n : Nat) (w : World σ) (u : σ) (hcall : f.call w.user = (u, none)) :
    (ScopeGuardImpl.dismiss^[n] g).destroy w =
      (if n = 0 then { w with user := u, invocations := w.invocations + 1 } else w,
        Result.returned ()) := by
  have hg : g = { dismissed_ := false, function_ := f } := by
    rcases hmk with h | h
    · exact (ctor_returned f vc w0 w1 g h).2
    · exact (ctor_returned f vc w0 w1 g h).2
  subst hg
  cases n with
  | zero => exact destroy_armed_returns _ w u rfl hcall
  | succ n =>
    rw [iterate_dismiss_succ, if_neg (Nat.succ_ne_zero n)]
    exact destroy_dismissed _ w rfl

/-- Witness of C5: the guard of `makeGuard` for the flag-setting action, not dismissed and
destroyed with one error in flight, calls the action once. -/
theorem exit_guard_fires_once_unless_dismissed_witness :
    (ScopeGuardImpl.dismiss^[0] exitGuard).destroy world1 =
      (if 0 = 0 then { world1 with user := true, invocations := world1.invocations + 1 }
        else world1, Result.returned ()) :=
  exit_guard_fires_once_unless_dismissed setFlag ValueCategory.rvalue world0 world0 exitGuard
    (Or.inl rfl) 0 world1 true rfl

/-- C6 as stated fails: an `on success` guard made with one error in flight and destroyed with
none in flight calls its action, although the count at destruction, 0, is not the recorded
count, 1. -/
theorem on_success_fires_when_count_decreased :
    operator_plus_ScopeGuardSuccess setFlag ValueCategory.rvalue world1 =
      (world1, Result.returned successGuard1) ∧
    ¬ ((successGuard1.destroy world0).1.invocations = world0.invocations + 1 ↔
        world0.uncaught = successGuard1.exceptionCount_) := by
  refine ⟨rfl, ?_⟩
  decide

/-- C6, amended: an `on success` guard records the count of errors in flight at construction;
destroyed in a world `w`, it calls its action (exactly once) if and only if the count in `w`
is not above the recorded count; otherwise it is dismissed and calls nothing. -/
theorem on_success_fires_iff_count_not_increased (f : FunctionType σ ε) (vc : ValueCategory)
    (w0 w1 : World σ) (g : ScopeGuardConditional σ ε false)
    (hmk : operator_plus_ScopeGuardSuccess f vc w0 = (w1, Result.returned g)) (w : World σ) :
    g.exceptionCount_ = w0.uncaught ∧
    ((g.destroy w).1.invocations = w.invocations + 1 ↔ w.uncaught ≤ g.exceptionCount_) ∧
    (w.uncaught ≤ g.exceptionCount_ → g.destroy w = f.invoke w) ∧
    (¬ w.uncaught ≤ g.exceptionCount_ →
      (g.destructorBody w).guard_.dismissed_ = true ∧ g.destroy w = (w, Result.returned ())) := by
  obtain ⟨_, hg⟩ := conditional_ctor_returned f vc w0 w1 g hmk
  subst hg
  by_cases h : w0.uncaught < w.uncaught
  · have h2 : ¬ w.uncaught ≤ w0.uncaught := by omega
    simp [ScopeGuardConditional.destroy, ScopeGuardConditional.destructorBody, h, h2,
      ScopeGuardImpl.destroy, ScopeGuardImpl.dismiss, ScopeGuardBase.dismiss, noexceptSpec]
  · have h2 : w.uncaught ≤ w0.uncaught := by omega
    simp [ScopeGuardConditional.destroy, ScopeGuardConditional.destructorBody, h, h2,
      ScopeGuardImpl.destroy, ScopeGuardImpl.execute, noexceptSpec, invoke_invocations]

/-- Witness of C6, amended: the guard made with one error in flight, destroyed with none. -/
theorem on_success_fires_iff_count_not_increased_witness :
    successGuard1.exceptionCount_ = world1.uncaught ∧
    ((successGuard1.destroy world0).1.invocations = world0.invocations + 1 ↔
      world0.uncaught ≤ successGuard1.exceptionCount_) ∧
    (world0.uncaught ≤ successGuard1.exceptionCount_ →
      successGuard1.destroy world0 = setFlag.invoke world0) ∧
    (¬ world0.uncaught ≤ successGuard1.exceptionCount_ →
      (successGuard1.destructorBody world0).guard_.dismissed_ = true ∧
      successGuard1.destroy world0 = (world0, Result.returned ())) :=
  on_success_fires_iff_count_not_increased setFlag ValueCategory.rvalue world1 world1
    successGuard1 rfl world0

/-- C7: an `on failure` guard records the count of errors in flight at construction; destroyed
in a world `w`, it calls its action (exactly once) if and only if the count in `w` is above the
recorded count; otherwise it is dismissed and calls nothing. -/
theorem on_failure_fires_iff_count_increased (f : FunctionType σ ε) (vc : ValueCategory)
    (w0 w1 : World σ) (g : ScopeGuardConditional σ ε true)
    (hmk : operator_plus_ScopeGuardFail f vc w0 = (w1, Result.returned g)) (w : World σ) :
    g.exceptionCount_ = w0.uncaught ∧
    ((g.destroy w).1.invocations = w.invocations + 1 ↔ g.exceptionCount_ < w.uncaught) ∧
    (¬ g.exceptionCount_ < w.uncaught →
      (g.destructorBody w).guard_.dismissed_ = true ∧ g.destroy w = (w, Result.returned ())) := by
  obtain ⟨_, hg⟩ := conditional_ctor_returned f vc w0 w1 g hmk
  subst hg
  by_cases h : w0.uncaught < w.uncaught
  · simp [ScopeGuardConditional.destroy, ScopeGuardConditional.destructorBody, h,
      destroy_invocations, noexceptSpec_fst]
  · simp [ScopeGuardConditional.destroy, ScopeGuardConditional.destructorBody, h,
      ScopeGuardImpl.destroy, ScopeGuardImpl.dismiss, ScopeGuardBase.dismiss, noexceptSpec]

/-- Witness of C7: the guard made with no error in flight, destroyed with one in flight. -/
theorem on_failure_fires_iff_count_increased_witness :
    failGuard0.exceptionCount_ = world0.uncaught ∧
    ((failGuard0.destroy world1).1.invocations = world1.invocations + 1 ↔
      failGuard0.exceptionCount_ < world1.uncaught) ∧
    (¬ failGuard0.exceptionCount_ < world1.uncaught →
      (failGuard0.destructorBody world1).guard_.dismissed_ = true ∧
      failGuard0.destroy world1 = (world1, Result.returned ())) :=
  on_failure_fires_iff_count_increased setFlag ValueCategory.rvalue world0 world0 failGuard0 rfl
    world1

end

section

variable {σ ε : Type}

open detail

theorem capture_raised_flags (f : FunctionType σ ε) (vc : ValueCategory) (w : World σ) (e : ε)
    (hcap : (ScopeGuardImpl.capture f vc w).2 = Result.raised e) :
    ScopeGuardImpl.capture f vc w = ({ w with uncaught := w.uncaught + 1 }, Result.raised e) ∧
    (vc = ValueCategory.rvalue → f.is_nothrow_move_constructible = false) ∧
    (vc ≠ ValueCategory.rvalue → f.is_nothrow_copy_constructible = false) := by
  rcases f with ⟨call, cc, ncc, nmc, cr, mr⟩
  cases vc <;> cases cc <;> cases ncc <;> cases nmc <;> cases cr <;> cases mr <;>
    simp_all [ScopeGuardImpl.capture, FunctionType.copyConstruct, FunctionType.moveConstruct,
      FunctionType.moveIfNoexceptConstruct, noexceptSpec]

theorem ctor_capture_raised (f : FunctionType σ ε) (vc : ValueCategory) (w : World σ) (e : ε)
    (hcap : (ScopeGuardImpl.capture f vc w).2 = Result.raised e) :
    (ScopeGuardImpl.ctor f vc w : World σ × Result ε (ScopeGuardImpl σ ε true)) =
      unwindThrough (ScopeGuardImpl.safeConstructFalse f : ScopeGuardImpl σ ε true).destroy e
        { w with uncaught := w.uncaught + 1 } := by
  obtain ⟨h1, h2, h3⟩ := capture_raised_flags f vc w e hcap
  cases vc
  · have h4 := h3 (by decide)
    simp only [ScopeGuardImpl.capture] at h1
    simp only [ScopeGuardImpl.ctor, h4, ScopeGuardImpl.ctorDelegate, ScopeGuardImpl.ctorPrivate,
      h1, ScopeGuardImpl.safeConstruct, Failsafe.destroy]
    rfl
  · have h4 := h3 (by decide)
    simp only [ScopeGuardImpl.capture] at h1
    simp only [ScopeGuardImpl.ctor, h4, ScopeGuardImpl.ctorDelegate, ScopeGuardImpl.ctorPrivate,
      h1, ScopeGuardImpl.safeConstruct, Failsafe.destroy]
    rfl
  · have h4 := h2 rfl
    simp only [ScopeGuardImpl.capture] at h1
    simp only [ScopeGuardImpl.ctor, h4, ScopeGuardImpl.ctorDelegate, ScopeGuardImpl.ctorPrivate,
      h1, ScopeGuardImpl.safeConstruct, Failsafe.destroy]
    rfl

/-- C8 as stated fails: `makeGuard` on an lvalue action whose copy constructor raises and whose
`operator()` raises as well calls the action once and then terminates the process; the capture
error does not propagate out of the call. -/
theorem makeGuard_capture_raises_action_raises :
    (ScopeGuardImpl.capture TestFuncThrowing ValueCategory.lvalue world0).2 =
      Result.raised "test" ∧
    (makeGuard TestFuncThrowing ValueCategory.lvalue world0).1.invocations = 1 ∧
    (makeGuard TestFuncThrowing ValueCategory.lvalue world0).2 = Result.terminated ∧
    (makeGuard TestFuncThrowing ValueCategory.lvalue world0).2 ≠ Result.raised "test" := by
  refine ⟨rfl, rfl, rfl, ?_⟩
  show (Result.terminated : Result String (ScopeGuardImpl Bool String true)) ≠
    Result.raised "test"
  exact fun h => Result.noConfusion h

/-- C8, amended: when the capture of the action by `makeGuard` raises `e` (the copy, or the
move that is not `noexcept`), the original action is called exactly once; if that call returns,
`e` then propagates out of `makeGuard` and no guard is returned; if that call raises, the
process is terminated. -/
theorem makeGuard_capture_raises (f : FunctionType σ ε) (vc : ValueCategory) (w : World σ)
    (e : ε) (hcap : (ScopeGuardImpl.capture f vc w).2 = Result.raised e) :
    (makeGuard f vc w).1.invocations = w.invocations + 1 ∧
    (∀ u, f.call w.user = (u, none) →
      makeGuard f vc w =
        ({ user := u, invocations := w.invocations + 1, uncaught := w.uncaught + 1 },
          Result.raised e)) ∧
    (∀ u e2, f.call w.user = (u, some e2) → (makeGuard f vc w).2 = Result.terminated) := by
  unfold makeGuard
  rw [ctor_capture_raised f vc w e hcap]
  refine ⟨?_, ?_, ?_⟩
  · rcases hc : f.call w.user with ⟨u, _ | e2⟩ <;>
      simp [unwindThrough, ScopeGuardImpl.safeConstructFalse, ScopeGuardImpl.destroy,
        ScopeGuardImpl.execute, FunctionType.invoke, FunctionType.ref, hc, noexceptSpec]
  · intro u hc
    simp [unwindThrough, ScopeGuardImpl.safeConstructFalse, ScopeGuardImpl.destroy,
      ScopeGuardImpl.execute, FunctionType.invoke, FunctionType.ref, hc, noexceptSpec]
  · intro u e2 hc
    simp [unwindThrough, ScopeGuardImpl.safeConstructFalse, ScopeGuardImpl.destroy,
      ScopeGuardImpl.execute, FunctionType.invoke, FunctionType.ref, hc, noexceptSpec]

/-- Witness of C8, amended: `makeGuard(testFunc)` of the test, whose copy raises: the flag is
set by the one call of the action and the error of the copy propagates. -/
theorem makeGuard_capture_raises_witness :
    makeGuard TestFunc ValueCategory.lvalue world0 =
      ({ user := true, invocations := 1, uncaught := 1 }, Result.raised "test") :=
  (makeGuard_capture_raises TestFunc ValueCategory.lvalue world0 "test" rfl).2.1 true rfl

/-- C9 as stated fails: the armed guard `makeGuard` returns for an action that raises,
destroyed with no error in flight, terminates the process; the error of the action does not
propagate out of the destruction. -/
theorem exit_guard_raising_no_error_in_flight :
    makeGuard throwTest ValueCategory.rvalue world0 =
      (world0, Result.returned exitGuardThrowing) ∧
    world0.uncaught = 0 ∧
    throwTest.call world0.user = (false, some "test") ∧
    (exitGuardThrowing.destroy world0).2 = Result.terminated ∧
    (exitGuardThrowing.destroy world0).2 ≠ Result.raised "test" := by
  refine ⟨rfl, rfl, rfl, ?_, ?_⟩ <;> decide

/-- C9, amended: an armed unconditional guard destroyed with no error in flight, whose action
raises, calls the action once and the process is terminated; no error leaves the
destruction. -/
theorem exit_guard_raising_terminates (g : ScopeGuardImpl σ ε true) (w : World σ) (u : σ)
    (e : ε) (harmed : g.dismissed_ = false) (_hnone : w.uncaught = 0)
    (hcall : g.function_.call w.user = (u, some e)) :
    (g.destroy w).2 = Result.terminated ∧
    (g.destroy w).1.invocations = w.invocations + 1 ∧
    ∀ e2, (g.destroy w).2 ≠ Result.raised e2 := by
  rw [destroy_armed_raises_terminates g w u e harmed hcall]
  simp

/-- Witness of C9, amended: the guard of `makeGuard` for the raising action of the test. -/
theorem exit_guard_raising_terminates_witness :
    (exitGuardThrowing.destroy world0).2 = Result.terminated ∧
    (exitGuardThrowing.destroy world0).1.invocations = world0.invocations + 1 ∧
    ∀ e2, (exitGuardThrowing.destroy world0).2 ≠ Result.raised e2 :=
  exit_guard_raising_terminates exitGuardThrowing world0 false "test" rfl rfl rfl

/-- C10: an armed unconditional guard destroyed while an error is in flight, whose action
raises a second error, terminates the process; no error leaves the destruction. -/
theorem exit_guard_secondary_error_terminates (g : ScopeGuardImpl σ ε true) (w : World σ)
    (u : σ) (e : ε) (harmed : g.dismissed_ = false) (_hflight : 0 < w.uncaught)
    (hcall : g.function_.call w.user = (u, some e)) :
    (g.destroy w).2 = Result.terminated ∧ ∀ e2, (g.destroy w).2 ≠ Result.raised e2 := by
  rw [destroy_armed_raises_terminates g w u e harmed hcall]
  simp

/-- Witness of C10: the guard of `makeGuard` for the raising action of the test, destroyed with
one error in flight. -/
theorem exit_guard_secondary_error_terminates_witness :
    (exitGuardThrowing.destroy world1).2 = Result.terminated ∧
    ∀ e2, (exitGuardThrowing.destroy world1).2 ≠ Result.raised e2 :=
  exit_guard_secondary_error_terminates exitGuardThrowing world1 false "test" rfl (by decide) rfl

end

/-! ## Compile-time strings: algebraic laws and the terminator -/

theorem operator_eq_true_iff {N1 N2 : Nat} {TL TR : Tag} (l : CompileTimeString N1 TL)
    (r : CompileTimeString N2 TR) :
    operator_eq l r = true ↔
      N1 = N2 ∧ ∀ i, i < N1 → l.operator_index i = r.operator_index i := by
  by_cases h : N1 = N2
  · subst h
    simp [operator_eq, detail.stringEqual, stringEqualPack_iff]
  · simp [operator_eq, detail.stringEqual, h]

theorem operator_eq_of_size_ne {N1 N2 : Nat} {TL TR : Tag} (l : CompileTimeString N1 TL)
    (r : CompileTimeString N2 TR) (h : N1 ≠ N2) : operator_eq l r = false := by
  simp [operator_eq, detail.stringEqual, h]

theorem getElem?_of_getD_zero (xs : List Nat) (j : Nat) (h : j < xs.length)
    (h0 : xs.getD j 0 = 0) : xs[j]? = some 0 := by
  rw [List.getD_eq_getElem?_getD, List.getElem?_eq_getElem h] at h0
  rw [List.getElem?_eq_getElem h]
  exact congrArg some h0

theorem ofChars_terminator {N : Nat} (chars : List Nat) (h : chars.length = N) :
    (CompileTimeString.ofChars chars h).c_str[N]? = some 0 := by
  subst h
  simp [CompileTimeString.ofChars, CompileTimeString.c_str]

theorem toUpper_terminator {N : Nat} {T : Tag} (s : CompileTimeString N T) :
    s.toUpper.c_str[N]? = some 0 := by
  unfold CompileTimeString.toUpper CompileTimeString.toUpperSeq
  exact ofChars_terminator _ _

theorem toLower_terminator {N : Nat} {T : Tag} (s : CompileTimeString N T) :
    s.toLower.c_str[N]? = some 0 := by
  unfold CompileTimeString.toLower CompileTimeString.toUpperSeq
  exact ofChars_terminator _ _

theorem ofLiteral_index {N : Nat} (s : StringLiteral N) (j : Nat) :
    (CompileTimeString.ofLiteral s).operator_index j =
      if j < N then s.operator_index j else 0 := by
  simp only [CompileTimeString.ofLiteral, CompileTimeString.operator_index,
    CompileTimeString.c_str]
  rw [copyLoop_getD]
  simp only [List.length_replicate, Nat.zero_add, Nat.zero_le, true_and, Nat.sub_zero,
    CompileTimeString.operator_index, CompileTimeString.c_str]
  by_cases h1 : j < N
  · rw [if_pos (by omega), if_pos h1]
  · rw [if_neg (by omega), if_neg h1]
    simp only [List.getD_eq_getElem?_getD, List.getElem?_replicate]
    split <;> rfl

/-- C13: equality of compile-time strings is reflexive, symmetric for operands of any sizes
and variants, and false in both directions whenever the sizes differ; `literal("test")`, whose
four characters are the first four of `literal("testing")`, is not equal to it. -/
theorem operator_eq_refl_symm_size {N N1 N2 : Nat} {T TL TR : Tag} (s : CompileTimeString N T)
    (l : CompileTimeString N1 TL) (r : CompileTimeString N2 TR) :
    operator_eq s s = true ∧
    operator_eq l r = operator_eq r l ∧
    (N1 ≠ N2 → operator_eq l r = false ∧ operator_eq r l = false) ∧
    ((∀ i, i < 4 → testLiteral.operator_index i = testing.operator_index i) ∧
      operator_eq testLiteral testing = false ∧ operator_eq testing testLiteral = false) := by
  refine ⟨?_, ?_, ?_, ?_, by decide, by decide⟩
  · exact (operator_eq_true_iff s s).mpr ⟨rfl, fun _ _ => rfl⟩
  · rw [Bool.eq_iff_iff, operator_eq_true_iff, operator_eq_true_iff]
    constructor
    · rintro ⟨h, hi⟩
      exact ⟨h.symm, fun i hlt => (hi i (h ▸ hlt)).symm⟩
    · rintro ⟨h, hi⟩
      exact ⟨h.symm, fun i hlt => (hi i (h ▸ hlt)).symm⟩
  · intro h
    exact ⟨operator_eq_of_size_ne l r h, operator_eq_of_size_ne r l (Ne.symm h)⟩
  · decide

/-- Witness of C13: `literal("testing")` (size 7) and `literal(" a thing!")` (size 9) are
unequal in both directions. -/
theorem operator_eq_refl_symm_size_witness :
    operator_eq testing aThing = false ∧ operator_eq aThing testing = false :=
  (operator_eq_refl_symm_size testing testing aThing).2.2.1 (by decide)

/-- C14: concatenation is associative under the library's equality: `(a + b) + c == a + (b + c)`
for all compile-time strings, and both sides have size `a.size() + b.size() + c.size()`. -/
theorem operator_plus_assoc {N1 N2 N3 : Nat} {T1 T2 T3 : Tag} (a : CompileTimeString N1 T1)
    (b : CompileTimeString N2 T2) (c : CompileTimeString N3 T3) :
    operator_eq (operator_plus (operator_plus a b) c) (operator_plus a (operator_plus b c)) =
      true ∧
    (operator_plus (operator_plus a b) c).size = a.size + b.size + c.size ∧
    (operator_plus a (operator_plus b c)).size = a.size + b.size + c.size := by
  refine ⟨?_, rfl, ?_⟩
  · rw [operator_eq_true_iff]
    refine ⟨Nat.add_assoc N1 N2 N3, ?_⟩
    intro i hi
    simp only [operator_plus_index]
    by_cases h1 : i < N1
    · rw [if_pos (by omega), if_pos h1, if_pos h1]
    · by_cases h2 : i < N1 + N2
      · rw [if_pos h2, if_neg h1, if_pos h2, if_neg h1, if_pos (by omega), if_pos (by omega)]
      · rw [if_neg h2, if_pos hi, if_neg h1, if_pos (by omega), if_neg (by omega),
          if_pos (by omega)]
        congr 1
        omega
  · show N1 + (N2 + N3) = N1 + N2 + N3
    omega

/-- C15: every owned array the library produces has a buffer of `N + 1` elements whose element
at index `N` is the null character: `literal(c)` of a single character, a concatenation,
`toUpper()`, `toLower()`, and the conversion from a literal view. -/
theorem owned_array_null_terminated {N N1 N2 : Nat} {T TL TR : Tag} (c : Nat)
    (l : CompileTimeString N1 TL) (r : CompileTimeString N2 TR) (s : CompileTimeString N T)
    (v : StringLiteral N) :
    ((literalChar c).c_str.length = 1 + 1 ∧ (literalChar c).c_str[1]? = some 0) ∧
    ((operator_plus l r).c_str.length = N1 + N2 + 1 ∧
      (operator_plus l r).c_str[N1 + N2]? = some 0) ∧
    (s.toUpper.c_str.length = N + 1 ∧ s.toUpper.c_str[N]? = some 0) ∧
    (s.toLower.c_str.length = N + 1 ∧ s.toLower.c_str[N]? = some 0) ∧
    ((CompileTimeString.ofLiteral v).c_str.length = N + 1 ∧
      (CompileTimeString.ofLiteral v).c_str[N]? = some 0) := by
  refine ⟨⟨rfl, rfl⟩, ⟨(operator_plus l r).length_array_, ?_⟩,
    ⟨s.toUpper.length_array_, toUpper_terminator s⟩,
    ⟨s.toLower.length_array_, toLower_terminator s⟩,
    ⟨(CompileTimeString.ofLiteral v).length_array_, ?_⟩⟩
  · apply getElem?_of_getD_zero
    · have := (operator_plus l r).length_array_
      simp only [CompileTimeString.c_str]
      omega
    · have h := operator_plus_index l r (N1 + N2)
      rw [if_neg (by omega), if_neg (by omega)] at h
      exact h
  · apply getElem?_of_getD_zero
    · have := (CompileTimeString.ofLiteral v).length_array_
      simp only [CompileTimeString.c_str]
      omega
    · have h := ofLiteral_index v N
      rw [if_neg (by omega)] at h
      exact h

/-- C19: upper-casing distributes over concatenation under the library's equality:
`(a + b).toUpper() == a.toUpper() + b.toUpper()` for all compile-time strings. -/
theorem toUpper_operator_plus {N1 N2 : Nat} {TL TR : Tag} (a : CompileTimeString N1 TL)
    (b : CompileTimeString N2 TR) :
    operator_eq (operator_plus a b).toUpper (operator_plus a.toUpper b.toUpper) = true := by
  rw [operator_eq_true_iff]
  refine ⟨rfl, ?_⟩
  intro i hi
  rw [toUpper_index _ i hi, operator_plus_index, operator_plus_index]
  by_cases h1 : i < N1
  · rw [if_pos h1, if_pos h1, toUpper_index a i h1]
  · rw [if_neg h1, if_pos hi, if_neg h1, if_pos hi, toUpper_index b (i - N1) (by omega)]

/-- C20: the empty string is a two-sided identity of concatenation: `literal("") + s == s` and
`s + literal("") == s`, both of the size of `s`; `literal("") + literal("")` is `empty()` and
equal to `literal("")`. -/
theorem operator_plus_emptyLiteral {N : Nat} {T : Tag} (s : CompileTimeString N T) :
    operator_eq (operator_plus emptyLiteral s) s = true ∧
    operator_eq (operator_plus s emptyLiteral) s = true ∧
    (operator_plus emptyLiteral s).size = s.size ∧
    (operator_plus s emptyLiteral).size = s.size ∧
    (operator_plus emptyLiteral emptyLiteral).empty = true ∧
    operator_eq (operator_plus emptyLiteral emptyLiteral) emptyLiteral = true := by
  refine ⟨?_, ?_, ?_, rfl, rfl, by decide⟩
  · rw [operator_eq_true_iff]
    refine ⟨Nat.zero_add N, ?_⟩
    intro i hi
    rw [operator_plus_index, if_neg (Nat.not_lt_zero i), if_pos hi, Nat.sub_zero]
  · rw [operator_eq_true_iff]
    refine ⟨rfl, ?_⟩
    intro i hi
    have hi : i < N := hi
    rw [operator_plus_index, if_pos hi]
  · show 0 + N = N
    omega

/-! ## Scope guards: moves, the dismissed flag and the failsafe -/

section

variable {σ ε : Type}

open detail

theorem moveIfNoexceptConstruct_returned (f f2 : FunctionType σ ε) (w w1 : World σ)
    (h : f.moveIfNoexceptConstruct w = (w1, Result.returned f2)) : w1 = w ∧ f2 = f := by
  rcases f with ⟨call, cc, ncc, nmc, cr, mr⟩
  cases cc <;> cases ncc <;> cases nmc <;> cases cr <;> cases mr <;>
    simp_all [FunctionType.copyConstruct, FunctionType.moveConstruct,
      FunctionType.moveIfNoexceptConstruct, noexceptSpec]

theorem capture_returned (f f2 : FunctionType σ ε) (vc : ValueCategory) (w : World σ)
    (h : (ScopeGuardImpl.capture f vc w).2 = Result.returned f2) :
    ScopeGuardImpl.capture f vc w = (w, Result.returned f) := by
  rcases f with ⟨call, cc, ncc, nmc, cr, mr⟩
  cases vc <;> cases cc <;> cases ncc <;> cases nmc <;> cases cr <;> cases mr <;>
    simp_all [ScopeGuardImpl.capture, FunctionType.copyConstruct, FunctionType.moveConstruct,
      FunctionType.moveIfNoexceptConstruct, noexceptSpec]

theorem failsafe_dismiss_destroy {b : Bool} (fs : Failsafe σ ε b) (w : World σ) :
    fs.dismiss.destroy w = (w, Result.returned ()) := by
  cases fs with
  | base g => rfl
  | reference g => exact destroy_dismissed _ w rfl

theorem moveCtor_returned {b : Bool} (g gnew gsrc : ScopeGuardImpl σ ε b) (w w1 : World σ)
    (h : ScopeGuardImpl.moveCtor g w = (w1, Result.returned (gnew, gsrc))) :
    w1 = w ∧ gnew = { dismissed_ := g.dismissed_, function_ := g.function_ } ∧
      gsrc = { dismissed_ := true, function_ := g.function_ } := by
  have h2 := noexceptSpec_eq_returned _ _ _ _ h
  rcases hc : g.function_.moveIfNoexceptConstruct w with ⟨w2, f2 | e | _⟩
  · obtain ⟨hw, hf⟩ := moveIfNoexceptConstruct_returned _ _ _ _ hc
    rw [hc] at h2
    simp only [Prod.mk.injEq, Result.returned.injEq] at h2
    obtain ⟨h3, h4, h5⟩ := h2
    subst hw hf
    exact ⟨h3.symm, h4.symm, h5.symm⟩
  · rw [hc] at h2
    simp at h2
  · rw [hc] at h2
    simp at h2

theorem iterate_dismiss_dismissed {b : Bool} (g : ScopeGuardImpl σ ε b) (k : Nat) :
    (ScopeGuardImpl.dismiss^[k] g).dismissed_ = (g.dismissed_ || decide (0 < k)) := by
  cases k with
  | zero => simp
  | succ k => rw [iterate_dismiss_succ]; simp [ScopeGuardImpl.dismiss, ScopeGuardBase.dismiss]

end

section

variable {σ ε : Type}

open detail

/-- C11: an `on success` guard whose condition is met at destruction (the count of errors in
flight is not above the recorded count) and whose action raises `e`: the action is called once
and `e` propagates out of the destruction; it is neither swallowed nor turned into
termination. -/
theorem on_success_action_error_propagates (f : FunctionType σ ε) (vc : ValueCategory)
    (w0 w1 : World σ) (g : ScopeGuardConditional σ ε false)
    (hmk : operator_plus_ScopeGuardSuccess f vc w0 = (w1, Result.returned g)) (w : World σ)
    (u : σ) (e : ε) (hfire : w.uncaught ≤ g.exceptionCount_)
    (hcall : f.call w.user = (u, some e)) :
    g.destroy w =
      ({ user := u, invocations := w.invocations + 1, uncaught := w.uncaught + 1 },
        Result.raised e) := by
  obtain ⟨_, hg⟩ := conditional_ctor_returned f vc w0 w1 g hmk
  subst hg
  have h : ¬ w0.uncaught < w.uncaught := by
    have h1 : w.uncaught ≤ w0.uncaught := hfire
    omega
  simp [ScopeGuardConditional.destroy, ScopeGuardConditional.destructorBody, h,
    ScopeGuardImpl.destroy, ScopeGuardImpl.execute, noexceptSpec,
    invoke_of_call_raises _ _ _ _ hcall]

/-- Witness of C11: `SCOPE_SUCCESS { throw std::runtime_error("test"); }` of the test, made and
destroyed with no error in flight. -/
theorem on_success_action_error_propagates_witness :
    successGuardThrowing.destroy world0 =
      ({ user := false, invocations := 1, uncaught := 1 }, Result.raised "test") :=
  on_success_action_error_propagates throwTest ValueCategory.rvalue world0 world0
    successGuardThrowing rfl world0 false "test" (by decide) rfl

/-- C12: a move construction that returns gives the new guard the action and the dismissed flag
of the source, leaves the source dismissed and the world as it was; when the new guard, after
`k` calls of `dismiss()`, and the source are then destroyed, in either order, the action is
called once in total if the source was armed before the move and `k = 0`, and not at all
otherwise. -/
theorem moveCtor_transfers_and_fires_at_most_once {b : Bool} (g gnew gsrc : ScopeGuardImpl σ ε b)
    (w w1 : World σ)
    (hmv : ScopeGuardImpl.moveCtor g w = (w1, Result.returned (gnew, gsrc))) (k : Nat)
    (wa : World σ) :
    gnew.function_ = g.function_ ∧ gnew.dismissed_ = g.dismissed_ ∧ gsrc.dismissed_ = true ∧
    w1 = w ∧
    (gsrc.destroy ((ScopeGuardImpl.dismiss^[k] gnew).destroy wa).1).1.invocations =
      wa.invocations + (if g.dismissed_ = false ∧ k = 0 then 1 else 0) ∧
    ((ScopeGuardImpl.dismiss^[k] gnew).destroy (gsrc.destroy wa).1).1.invocations =
      wa.invocations + (if g.dismissed_ = false ∧ k = 0 then 1 else 0) := by
  obtain ⟨hw, hn, hs⟩ := moveCtor_returned g gnew gsrc w w1 hmv
  subst hn hs
  refine ⟨rfl, rfl, rfl, hw, ?_, ?_⟩
  · rw [destroy_invocations, destroy_invocations, iterate_dismiss_dismissed]
    cases hd : g.dismissed_ <;> cases k <;> simp
  · rw [destroy_invocations, destroy_invocations, iterate_dismiss_dismissed]
    cases hd : g.dismissed_ <;> cases k <;> simp

/-- Witness of C12: the armed guard of `makeGuard` for the flag-setting action is moved; the
new guard is armed, the source dismissed, and destroying both calls the action once. -/
theorem moveCtor_transfers_and_fires_at_most_once_witness :
    ScopeGuardImpl.moveCtor exitGuard world0 =
      (world0, Result.returned (exitGuard, exitGuardMovedFrom)) ∧
    exitGuardMovedFrom.dismissed_ = true ∧
    (exitGuardMovedFrom.destroy (exitGuard.destroy world0).1).1.invocations = 1 ∧
    (exitGuard.destroy (exitGuardMovedFrom.destroy world0).1).1.invocations = 1 :=
  ⟨rfl,
   (moveCtor_transfers_and_fires_at_most_once exitGuard exitGuard exitGuardMovedFrom world0
     world0 rfl 0 world0).2.2.1,
   (moveCtor_transfers_and_fires_at_most_once exitGuard exitGuard exitGuardMovedFrom world0
     world0 rfl 0 world0).2.2.2.2.1,
   (moveCtor_transfers_and_fires_at_most_once exitGuard exitGuard exitGuardMovedFrom world0
     world0 rfl 0 world0).2.2.2.2.2⟩

theorem moveCtor_invocations {b : Bool} (g : ScopeGuardImpl σ ε b) (w : World σ) :
    (ScopeGuardImpl.moveCtor g w).1.invocations = w.invocations := by
  rcases g with ⟨⟨d⟩, ⟨call, cc, ncc, nmc, cr, mr⟩⟩
  cases cc <;> cases ncc <;> cases nmc <;> cases cr <;> cases mr <;>
    simp [ScopeGuardImpl.moveCtor, FunctionType.copyConstruct, FunctionType.moveConstruct,
      FunctionType.moveIfNoexceptConstruct, noexceptSpec]

theorem conditional_destroy_invocations {b : Bool} (c : ScopeGuardConditional σ ε b)
    (w : World σ) :
    (c.destroy w).1.invocations =
      w.invocations +
        (if c.guard_.dismissed_ || (b != decide (c.exceptionCount_ < w.uncaught)) then 0
         else 1) := by
  unfold ScopeGuardConditional.destroy
  rw [noexceptSpec_fst, destroy_invocations]
  unfold ScopeGuardConditional.destructorBody
  by_cases h : (b != decide (c.exceptionCount_ < w.uncaught)) = true
  · simp [h, ScopeGuardImpl.dismiss, ScopeGuardBase.dismiss]
  · simp [h]

theorem step_invocations {b : Bool} (op : GuardOp σ) (l l1 : GuardLife σ ε b) (w w1 : World σ)
    (h : l.step op w = some (l1, w1)) :
    w1.invocations =
      w.invocations +
        (if l1.state = GuardState.Fired ∧ l.state = GuardState.Armed then 1 else 0) := by
  cases l with
  | alive g =>
    cases op with
    | dismiss =>
      simp only [GuardLife.step, Option.some.injEq, Prod.mk.injEq] at h
      obtain ⟨h1, h2⟩ := h
      subst h1 h2
      simp [GuardLife.state, ScopeGuardImpl.dismiss, ScopeGuardBase.dismiss]
    | moveFrom =>
      have hi := moveCtor_invocations g w
      simp only [GuardLife.step] at h
      rcases hm : ScopeGuardImpl.moveCtor g w with ⟨w2, ⟨gnew, gsrc⟩ | e | _⟩ <;>
        rw [hm] at h hi <;>
        simp only [Option.some.injEq, Prod.mk.injEq] at h <;>
        obtain ⟨h1, h2⟩ := h <;>
        subst h1 h2
      · obtain ⟨_, _, hs⟩ := moveCtor_returned g gnew gsrc w w2 hm
        subst hs
        simpa [GuardLife.state] using hi
      · cases hd : g.dismissed_ <;> simpa [GuardLife.state, hd] using hi
      · cases hd : g.dismissed_ <;> simpa [GuardLife.state, hd] using hi
    | scopeExit =>
      simp only [GuardLife.step, Option.some.injEq, Prod.mk.injEq] at h
      obtain ⟨h1, h2⟩ := h
      subst h1 h2
      rw [destroy_invocations]
      cases hd : g.dismissed_ <;> simp [GuardLife.state, hd]
    | conditionalScopeExit c =>
      simp only [GuardLife.step, Option.some.injEq, Prod.mk.injEq] at h
      obtain ⟨h1, h2⟩ := h
      subst h1 h2
      rw [conditional_destroy_invocations]
      cases hd : g.dismissed_ <;>
        cases hc : (b != decide (c < w.uncaught)) <;> simp [GuardLife.state, hd, hc]
    | elsewhere user uncaught =>
      simp only [GuardLife.step, Option.some.injEq, Prod.mk.injEq] at h
      obtain ⟨h1, h2⟩ := h
      subst h1 h2
      cases hd : g.dismissed_ <;> simp [GuardLife.state, hd]
  | destroyed called =>
    cases op with
    | elsewhere user uncaught =>
      simp only [GuardLife.step, Option.some.injEq, Prod.mk.injEq] at h
      obtain ⟨h1, h2⟩ := h
      subst h1 h2
      cases called <;> simp [GuardLife.state]
    | dismiss => simp [GuardLife.step] at h
    | moveFrom => simp [GuardLife.step] at h
    | scopeExit => simp [GuardLife.step] at h
    | conditionalScopeExit c => simp [GuardLife.step] at h

theorem step_state_of_not_armed {b : Bool} (op : GuardOp σ) (l l1 : GuardLife σ ε b)
    (w w1 : World σ) (h : l.step op w = some (l1, w1)) (hs : l.state ≠ GuardState.Armed) :
    l1.state = l.state := by
  cases l with
  | alive g =>
    have hd : g.dismissed_ = true := by
      cases hd : g.dismissed_
      · simp [GuardLife.state, hd] at hs
      · rfl
    cases op with
    | dismiss =>
      simp only [GuardLife.step, Option.some.injEq, Prod.mk.injEq] at h
      obtain ⟨h1, h2⟩ := h
      subst h1 h2
      simp [GuardLife.state, hd, ScopeGuardImpl.dismiss, ScopeGuardBase.dismiss]
    | moveFrom =>
      simp only [GuardLife.step] at h
      rcases hm : ScopeGuardImpl.moveCtor g w with ⟨w2, ⟨gnew, gsrc⟩ | e | _⟩ <;>
        rw [hm] at h <;>
        simp only [Option.some.injEq, Prod.mk.injEq] at h <;>
        obtain ⟨h1, h2⟩ := h <;>
        subst h1 h2
      · obtain ⟨_, _, hsrc⟩ := moveCtor_returned g gnew gsrc w w2 hm
        subst hsrc
        simp [GuardLife.state, hd]
      · rfl
      · rfl
    | scopeExit =>
      simp only [GuardLife.step, Option.some.injEq, Prod.mk.injEq] at h
      obtain ⟨h1, h2⟩ := h
      subst h1 h2
      rw [destroy_invocations]
      simp [GuardLife.state, hd]
    | conditionalScopeExit c =>
      simp only [GuardLife.step, Option.some.injEq, Prod.mk.injEq] at h
      obtain ⟨h1, h2⟩ := h
      subst h1 h2
      rw [conditional_destroy_invocations]
      simp [GuardLife.state, hd]
    | elsewhere user uncaught =>
      simp only [GuardLife.step, Option.some.injEq, Prod.mk.injEq] at h
      obtain ⟨h1, h2⟩ := h
      subst h1 h2
      rfl
  | destroyed called =>
    cases op with
    | elsewhere user uncaught =>
      simp only [GuardLife.step, Option.some.injEq, Prod.mk.injEq] at h
      obtain ⟨h1, h2⟩ := h
      subst h1 h2
      rfl
    | dismiss => simp [GuardLife.step] at h
    | moveFrom => simp [GuardLife.step] at h
    | scopeExit => simp [GuardLife.step] at h
    | conditionalScopeExit c => simp [GuardLife.step] at h

theorem run_invocations {b : Bool} (ops : List (GuardOp σ)) (l l1 : GuardLife σ ε b)
    (w w1 : World σ) (h : GuardLife.run ops (l, w) = some (l1, w1)) :
    (l.state ≠ GuardState.Armed → l1.state = l.state) ∧
    w1.invocations =
      w.invocations +
        (if l1.state = GuardState.Fired ∧ l.state = GuardState.Armed then 1 else 0) := by
  induction ops generalizing l w with
  | nil =>
    simp only [GuardLife.run, Option.some.injEq, Prod.mk.injEq] at h
    obtain ⟨h1, h2⟩ := h
    subst h1 h2
    refine ⟨fun _ => rfl, ?_⟩
    cases hst : l.state <;> simp
  | cons op ops ih =>
    simp only [GuardLife.run] at h
    rcases hstep : l.step op w with _ | ⟨l2, w2⟩
    · rw [hstep] at h
      simp at h
    · rw [hstep] at h
      obtain ⟨ih1, ih2⟩ := ih l2 w2 h
      have hinv := step_invocations op l l2 w w2 hstep
      have hterm := step_state_of_not_armed op l l2 w w2 hstep
      refine ⟨fun hs => ?_, ?_⟩
      · have h2 := hterm hs
        rw [ih1 (by rw [h2]; exact hs), h2]
      · rw [ih2, hinv]
        by_cases hs : l.state = GuardState.Armed
        · by_cases hs2 : l2.state = GuardState.Armed
          · simp [hs, hs2]
          · have h3 := ih1 hs2
            rw [h3]
            cases hst : l2.state <;> simp_all
        · have h2 := hterm hs
          have h3 := ih1 (by rw [h2]; exact hs)
          simp [hs, h2, h3]

/-- C16: in the state machine `Armed`, `Dismissed`, `Fired` of a guard instance, `Dismissed` and
`Fired` are terminal.
The dismissed flag, once set, stays set: `dismiss()` sets it and calling it twice leaves the
state of calling it once; a dismissed guard that is the source of a move stays dismissed and
hands the set flag to the new guard; the destructor body of a conditional guard leaves a set
flag set; and the destructor of a dismissed guard, unconditional or conditional, calls nothing
and leaves the world as it was.
Over the life of an instance: the end of the scope of an armed guard takes it to `Fired`; every
step from a state other than `Armed` ends in the same state, so no step re-arms a guard; on a
fired guard, which is destroyed, none of `dismiss()`, a move from it, or a destructor exists;
a step calls the action exactly when it takes the instance from `Armed` to `Fired`, and then
once; and over any sequence of steps an instance that does not start `Armed` keeps its state
and the action is called once if the instance goes from `Armed` to `Fired` and not at all
otherwise. -/
theorem dismissed_is_terminal {b : Bool} (g : ScopeGuardImpl σ ε b)
    (c : ScopeGuardConditional σ ε b) (w : World σ) :
    g.dismiss.dismissed_ = true ∧
    g.dismiss.dismiss = g.dismiss ∧
    (g.dismissed_ = true → g.dismiss = g) ∧
    (g.dismissed_ = true → ∀ (w1 w2 : World σ) (gnew gsrc : ScopeGuardImpl σ ε b),
      ScopeGuardImpl.moveCtor g w1 = (w2, Result.returned (gnew, gsrc)) →
      gsrc.dismissed_ = true ∧ gnew.dismissed_ = true) ∧
    (c.guard_.dismissed_ = true → (c.destructorBody w).guard_.dismissed_ = true) ∧
    (g.dismissed_ = true → g.destroy w = (w, Result.returned ())) ∧
    (c.guard_.dismissed_ = true → c.destroy w = (w, Result.returned ())) ∧
    (g.dismissed_ = false →
      (GuardLife.alive g).state = GuardState.Armed ∧
      (GuardLife.alive g).step GuardOp.scopeExit w =
        some (GuardLife.destroyed true, (g.destroy w).1) ∧
      (GuardLife.destroyed true : GuardLife σ ε b).state = GuardState.Fired ∧
      (g.destroy w).1.invocations = w.invocations + 1) ∧
    (∀ (op : GuardOp σ) (l l1 : GuardLife σ ε b) (w1 w2 : World σ),
      l.step op w1 = some (l1, w2) → l.state ≠ GuardState.Armed → l1.state = l.state) ∧
    (∀ (l : GuardLife σ ε b), l.state = GuardState.Fired → ∀ (w1 : World σ),
      l.step GuardOp.dismiss w1 = none ∧ l.step GuardOp.moveFrom w1 = none ∧
      l.step GuardOp.scopeExit w1 = none ∧
      ∀ n, l.step (GuardOp.conditionalScopeExit n) w1 = none) ∧
    (∀ (op : GuardOp σ) (l l1 : GuardLife σ ε b) (w1 w2 : World σ),
      l.step op w1 = some (l1, w2) →
      w2.invocations =
        w1.invocations +
          (if l1.state = GuardState.Fired ∧ l.state = GuardState.Armed then 1 else 0)) ∧
    (∀ (ops : List (GuardOp σ)) (l l1 : GuardLife σ ε b) (w1 w2 : World σ),
      GuardLife.run ops (l, w1) = some (l1, w2) →
      (l.state ≠ GuardState.Armed → l1.state = l.state) ∧
      w2.invocations =
        w1.invocations +
          (if l1.state = GuardState.Fired ∧ l.state = GuardState.Armed then 1 else 0)) := by
  refine ⟨rfl, rfl, ?_, ?_, ?_, ?_, ?_, ?_, ?_, ?_, ?_, ?_⟩
  · intro h
    rcases g with ⟨⟨d⟩, f⟩
    cases h
    rfl
  · intro h w1 w2 gnew gsrc hmv
    obtain ⟨_, hn, hs⟩ := moveCtor_returned g gnew gsrc w1 w2 hmv
    subst hn hs
    exact ⟨rfl, h⟩
  · intro h
    unfold ScopeGuardConditional.destructorBody
    split
    · rfl
    · exact h
  · intro h
    exact destroy_dismissed g w h
  · intro h
    have h2 : (c.destructorBody w).guard_.dismissed_ = true := by
      unfold ScopeGuardConditional.destructorBody
      split
      · rfl
      · exact h
    unfold ScopeGuardConditional.destroy
    rw [destroy_dismissed _ w h2, noexceptSpec_returned]
  · intro h
    have hinv : (g.destroy w).1.invocations = w.invocations + 1 := by
      rw [destroy_invocations, h]
      rfl
    refine ⟨by simp [GuardLife.state, h], ?_, rfl, hinv⟩
    simp [GuardLife.step, hinv]
  · intro op l l1 w1 w2 h hs
    exact step_state_of_not_armed op l l1 w1 w2 h hs
  · intro l hl w1
    cases l with
    | alive g1 =>
      cases hd : g1.dismissed_ <;> simp [GuardLife.state, hd] at hl
    | destroyed called => exact ⟨rfl, rfl, rfl, fun _ => rfl⟩
  · intro op l l1 w1 w2 h
    exact step_invocations op l l1 w1 w2 h
  · intro ops l l1 w1 w2 h
    exact run_invocations ops l l1 w1 w2 h

/-- Witness of C16: the moved-from guard, whose flag is set, is dismissed again, moved from
again and destroyed: the flag stays set and the action is not called.  The armed guard of
`makeGuard` for the flag-setting action fires at the end of its scope while an error is in
flight, with one call over its whole life; `dismiss()` does not exist on it afterwards. -/
theorem dismissed_is_terminal_witness :
    exitGuardMovedFrom.dismiss = exitGuardMovedFrom ∧
    (exitGuardMovedFrom.dismissed_ = true ∧ exitGuardMovedFrom.dismissed_ = true) ∧
    exitGuardMovedFrom.destroy world0 = (world0, Result.returned ()) ∧
    (GuardLife.alive exitGuard).step GuardOp.scopeExit world1 =
      some (GuardLife.destroyed true, (exitGuard.destroy world1).1) ∧
    (GuardLife.destroyed true : GuardLife Bool String true).step GuardOp.dismiss world1 = none ∧
    GuardLife.run [GuardOp.elsewhere false 1, GuardOp.scopeExit, GuardOp.elsewhere true 0]
        (GuardLife.alive exitGuard, world0) =
      some (GuardLife.destroyed true, { user := true, invocations := 1, uncaught := 0 }) ∧
    (1 : Nat) = world0.invocations +
      (if (GuardLife.destroyed true : GuardLife Bool String true).state = GuardState.Fired ∧
          (GuardLife.alive exitGuard).state = GuardState.Armed then 1 else 0) :=
  ⟨(dismissed_is_terminal exitGuardMovedFrom failGuard0 world0).2.2.1 rfl,
   (dismissed_is_terminal exitGuardMovedFrom failGuard0 world0).2.2.2.1 rfl world0 world0
     exitGuardMovedFrom exitGuardMovedFrom rfl,
   (dismissed_is_terminal exitGuardMovedFrom failGuard0 world0).2.2.2.2.2.1 rfl,
   ((dismissed_is_terminal exitGuard failGuard0 world1).2.2.2.2.2.2.2.1 rfl).2.1,
   ((dismissed_is_terminal exitGuard failGuard0 world1).2.2.2.2.2.2.2.2.2.1
     (GuardLife.destroyed true) rfl world1).1,
   rfl,
   ((dismissed_is_terminal exitGuard failGuard0 world0).2.2.2.2.2.2.2.2.2.2.2
     [GuardOp.elsewhere false 1, GuardOp.scopeExit, GuardOp.elsewhere true 0]
     (GuardLife.alive exitGuard) (GuardLife.destroyed true) world0
     { user := true, invocations := 1, uncaught := 0 } rfl).2⟩

/-- C17: when the capture of the action by `makeGuard` returns, the private constructor
dismisses the failsafe (whichever of the two `safeConstruct` returned), the destructor of the
dismissed failsafe calls nothing, `makeGuard` returns the armed guard and leaves the world, the
count of calls included, as it was; the destructor of that guard then calls the action exactly
once. -/
theorem makeGuard_capture_returns (f f2 : FunctionType σ ε) (vc : ValueCategory) (w : World σ)
    (hcap : (ScopeGuardImpl.capture f vc w).2 = Result.returned f2) (nothrow : Bool)
    (w2 : World σ) :
    ScopeGuardImpl.ctorPrivate (ScopeGuardImpl.capture f vc)
        (ScopeGuardImpl.safeConstruct nothrow f : Failsafe σ ε true) w =
      (w, Result.returned ({ dismissed_ := false, function_ := f },
        (ScopeGuardImpl.safeConstruct nothrow f : Failsafe σ ε true).dismiss)) ∧
    (ScopeGuardImpl.safeConstruct nothrow f : Failsafe σ ε true).dismiss.destroy w =
      (w, Result.returned ()) ∧
    makeGuard f vc w = (w, Result.returned { dismissed_ := false, function_ := f }) ∧
    (makeGuard f vc w).1.invocations = w.invocations ∧
    (({ dismissed_ := false, function_ := f } : ScopeGuardImpl σ ε true).destroy w2).1.invocations
      = w2.invocations + 1 := by
  have hc := capture_returned f f2 vc w hcap
  have hmk : makeGuard f vc w = (w, Result.returned { dismissed_ := false, function_ := f }) := by
    unfold makeGuard
    cases vc <;>
      simp only [ScopeGuardImpl.capture] at hc <;>
      simp only [ScopeGuardImpl.ctor, ScopeGuardImpl.ctorDelegate, ScopeGuardImpl.ctorPrivate, hc,
        failsafe_dismiss_destroy, noexceptSpec_returned]
  refine ⟨?_, failsafe_dismiss_destroy _ w, hmk, ?_, ?_⟩
  · simp only [ScopeGuardImpl.ctorPrivate, hc]
  · rw [hmk]
  · rw [destroy_invocations]
    rfl

/-- Witness of C17: `makeGuard` on the flag-setting closure of the test. -/
theorem makeGuard_capture_returns_witness :
    makeGuard setFlag ValueCategory.rvalue world0 = (world0, Result.returned exitGuard) ∧
    (exitGuard.destroy world1).1.invocations = world1.invocations + 1 :=
  ⟨(makeGuard_capture_returns setFlag setFlag ValueCategory.rvalue world0 rfl true world1).2.2.1,
   (makeGuard_capture_returns setFlag setFlag ValueCategory.rvalue world0 rfl true
     world1).2.2.2.2⟩

/-- C18: an `on success` guard and an `on failure` guard made with the same count of errors in
flight and destroyed in the same world `w`, whatever the count in `w`: they record the same
count, and exactly one of the two calls its action while the other is dismissed and calls
nothing (the failure guard fires when the count in `w` is above the recorded one, the success
guard otherwise). -/
theorem success_failure_complementary (fs ff : FunctionType σ ε) (vcs vcf : ValueCategory)
    (w0s w0f w1s w1f : World σ) (gs : ScopeGuardConditional σ ε false)
    (gf : ScopeGuardConditional σ ε true)
    (hs : operator_plus_ScopeGuardSuccess fs vcs w0s = (w1s, Result.returned gs))
    (hf : operator_plus_ScopeGuardFail ff vcf w0f = (w1f, Result.returned gf))
    (hcount : w0s.uncaught = w0f.uncaught) (w : World σ) :
    gs.exceptionCount_ = gf.exceptionCount_ ∧
    (((gs.destroy w).1.invocations = w.invocations + 1 ∧
        (gf.destructorBody w).guard_.dismissed_ = true ∧
        gf.destroy w = (w, Result.returned ())) ∨
      ((gf.destroy w).1.invocations = w.invocations + 1 ∧
        (gs.destructorBody w).guard_.dismissed_ = true ∧
        gs.destroy w = (w, Result.returned ()))) ∧
    ¬ ((gs.destroy w).1.invocations = w.invocations + 1 ∧
        (gf.destroy w).1.invocations = w.invocations + 1) := by
  obtain ⟨_, hgs⟩ := conditional_ctor_returned fs vcs w0s w1s gs hs
  obtain ⟨_, hgf⟩ := conditional_ctor_returned ff vcf w0f w1f gf hf
  subst hgs hgf
  by_cases h : w0f.uncaught < w.uncaught
  · simp [ScopeGuardConditional.destroy, ScopeGuardConditional.destructorBody, h, hcount,
      destroy_invocations, noexceptSpec_fst, ScopeGuardImpl.dismiss, ScopeGuardBase.dismiss,
      destroy_dismissed, noexceptSpec_returned]
  · simp [ScopeGuardConditional.destroy, ScopeGuardConditional.destructorBody, h, hcount,
      destroy_invocations, noexceptSpec_fst, ScopeGuardImpl.dismiss, ScopeGuardBase.dismiss,
      destroy_dismissed, noexceptSpec_returned]

/-- Witness of C18: the `SCOPE_SUCCESS` and `SCOPE_FAIL` guards of the test, made with no
error in flight and destroyed with one in flight. -/
theorem success_failure_complementary_witness :
    successGuard0.exceptionCount_ = failGuard0.exceptionCount_ ∧
    (((successGuard0.destroy world1).1.invocations = world1.invocations + 1 ∧
        (failGuard0.destructorBody world1).guard_.dismissed_ = true ∧
        failGuard0.destroy world1 = (world1, Result.returned ())) ∨
      ((failGuard0.destroy world1).1.invocations = world1.invocations + 1 ∧
        (successGuard0.destructorBody world1).guard_.dismissed_ = true ∧
        successGuard0.destroy world1 = (world1, Result.returned ()))) ∧
    ¬ ((successGuard0.destroy world1).1.invocations = world1.invocations + 1 ∧
        (failGuard0.destroy world1).1.invocations = world1.invocations + 1) :=
  success_failure_complementary setFlag setFlag ValueCategory.rvalue ValueCategory.rvalue
    world0 world0 world0 world0 successGuard0 failGuard0 rfl rfl rfl world1

end

end jd
